import Mathlib

/-!
Verification development for the organic-campaign planning service
(`backend/organic_campaign/campaign_service.py`).

The Python module is shallowly embedded below.  Conventions of the embedding:

* Python `datetime.date` values are modelled by the `Date` structure
  (proleptic Gregorian calendar, as Python uses).  `date + timedelta(days=n)`
  is `Date.addDays`, `date.toordinal()` is `Date.toOrdinal`,
  `date.weekday()` is `Date.weekday` (0 = Monday), and
  `date.strftime("%Y-%m-01")` is `Date.firstOfMonth`.  The Supabase string
  comparisons `gte`/`lt` on `"YYYY-MM-DD"` strings coincide with
  lexicographic order on (year, month, day) for the fixed-width format the
  code always produces, so they are modelled by `Date.le` / `Date.lt`.
* The OpenAI client and all its calls are an oracle (`Env`): a flag telling
  whether a client is configured, plus one response per call site.  Each
  response is either an exception (`Except.error`) or the value that
  `clean_and_parse_json` produced, modelled as the JSON-like `PyVal`.
  `random.random()` draws and `random.choice` picks are oracle streams
  `Env.rand` / `Env.choiceIdx`, consumed in program order exactly as the
  source draws them.
* The Supabase tables touched by the service (`social_media_calendars`,
  `calendar_entries`) are the `Store` structure; inserts append, updates map
  in place, deletes filter, and freshly inserted header rows receive ids
  from the `nextId` counter.  Row ids are opaque non-falsy values in the
  real system (UUIDs), so the Python truthiness test `if cal_id:` is
  modelled as an `Option` match.
* `business_context` dictionaries are opaque to every claim; they are
  modelled by an abstract association list `Ctx` threaded through unchanged
  (the `current_campaign` enrichment is invisible at this granularity).
-/

set_option linter.unusedVariables false

/-- Calendar date, mirroring Python `datetime.date` (proleptic Gregorian). -/
structure Date where
  year : Nat
  month : Nat
  day : Nat
deriving DecidableEq, Repr

/-- Gregorian leap-year test, as in Python `calendar.isleap`. -/
def isLeap (y : Nat) : Bool :=
  (y % 4 == 0 && y % 100 != 0) || (y % 400 == 0)

/-- Number of days in a month of a given year (month 1..12). -/
def daysInMonth (y m : Nat) : Nat :=
  if m = 2 then (if isLeap y then 29 else 28)
  else if m = 4 ∨ m = 6 ∨ m = 9 ∨ m = 11 then 30
  else 31

/-- A structurally valid proleptic-Gregorian date (year ≥ 1). -/
def Date.valid (d : Date) : Prop :=
  1 ≤ d.year ∧ 1 ≤ d.month ∧ d.month ≤ 12 ∧ 1 ≤ d.day ∧ d.day ≤ daysInMonth d.year d.month

instance (d : Date) : Decidable d.valid := by
  unfold Date.valid; infer_instance

/-- Next calendar day, the single step underlying `timedelta` addition. -/
def Date.succ (d : Date) : Date :=
  if d.day < daysInMonth d.year d.month then ⟨d.year, d.month, d.day + 1⟩
  else if d.month < 12 then ⟨d.year, d.month + 1, 1⟩
  else ⟨d.year + 1, 1, 1⟩

/-- Python `d + timedelta(days=n)` for n ≥ 0. -/
def Date.addDays : Date → Nat → Date
  | d, 0 => d
  | d, n + 1 => (Date.addDays d n).succ

/-- Days before the first of the month within the year (Python `_days_before_month`). -/
def daysBeforeMonth (y m : Nat) : Nat :=
  (match m with
   | 1 => 0 | 2 => 31 | 3 => 59 | 4 => 90 | 5 => 120 | 6 => 151
   | 7 => 181 | 8 => 212 | 9 => 243 | 10 => 273 | 11 => 304 | 12 => 334
   | _ => 0)
  + (if 2 < m ∧ isLeap y then 1 else 0)

/-- Days before January 1 of the year (Python `_days_before_year`). -/
def daysBeforeYear (y : Nat) : Nat :=
  365 * (y - 1) + (y - 1) / 4 - (y - 1) / 100 + (y - 1) / 400

/-- Python `date.toordinal()`: day count with 0001-01-01 ↦ 1. -/
def Date.toOrdinal (d : Date) : Nat :=
  daysBeforeYear d.year + daysBeforeMonth d.year d.month + d.day

/-- Python `date.weekday()`: 0 = Monday .. 6 = Sunday. -/
def Date.weekday (d : Date) : Nat :=
  (d.toOrdinal + 6) % 7

/-- Lexicographic comparison of dates; for the `"%Y-%m-%d"` strings the
service writes, string `gte`/`lt` agree with this order. -/
def Date.le (a b : Date) : Prop :=
  a.year < b.year ∨ (a.year = b.year ∧
    (a.month < b.month ∨ (a.month = b.month ∧ a.day ≤ b.day)))

/-- Strict lexicographic comparison of dates. -/
def Date.lt (a b : Date) : Prop :=
  a.year < b.year ∨ (a.year = b.year ∧
    (a.month < b.month ∨ (a.month = b.month ∧ a.day < b.day)))

instance (a b : Date) : Decidable (Date.le a b) := by
  unfold Date.le; infer_instance

instance (a b : Date) : Decidable (Date.lt a b) := by
  unfold Date.lt; infer_instance

/-- ISO `YYYY-MM-DD` rendering (Python `date.isoformat()`), zero-padded. -/
def padNum (width n : Nat) : String :=
  let s := toString n
  String.mk (List.replicate (width - s.length) '0') ++ s

/-- Python `date.isoformat()`. -/
def Date.iso (d : Date) : String :=
  padNum 4 d.year ++ "-" ++ padNum 2 d.month ++ "-" ++ padNum 2 d.day

/-- The `strftime("%Y-%m-01")` anchor used by the header resolver. -/
def Date.firstOfMonth (d : Date) : Date := ⟨d.year, d.month, 1⟩

/-- First of the month after `d`'s month. -/
def nextMonthFirst (d : Date) : Date :=
  if d.month < 12 then ⟨d.year, d.month + 1, 1⟩ else ⟨d.year + 1, 1, 1⟩

/-! ## JSON-like values and the generative-backend oracle -/

/-- Parsed JSON value as produced by `clean_and_parse_json` (booleans and
floats do not occur in the responses the service inspects and are elided). -/
inductive PyVal where
  | pyInt (n : Int)
  | pyStr (s : String)
  | pyList (elems : List PyVal)
  | pyDict (fields : List (String × PyVal))
  | pyNull

/-- Python `str()` of a parsed value, as used for
`str(data.get("format", "static"))` (container reprs abbreviated; only
string and number cases are ever exercised by the service). -/
def pyStrOf : PyVal → String
  | .pyStr s => s
  | .pyInt n => toString n
  | .pyList _ => "list"
  | .pyDict _ => "dict"
  | .pyNull => "None"

/-- The `isinstance(parsed, list) and all(isinstance(x, int) ...)`
acceptance test of the rhythm planner, returning the accepted list. -/
def asIntList : PyVal → Option (List Int)
  | .pyList l => l.mapM (fun v => match v with | .pyInt n => some n | _ => none)
  | _ => none

/-- The `isinstance(parsed, list) and all(isinstance(x, str) ...)`
acceptance test of the theme sequencer, returning the accepted list. -/
def asStrList : PyVal → Option (List String)
  | .pyList l => l.mapM (fun v => match v with | .pyStr s => some s | _ => none)
  | _ => none

/-- Opaque business-context mapping (contents never inspected by the
planning engine beyond prompt construction). -/
abbrev Ctx := List (String × String)

/-- Oracle for everything outside the planning engine: whether an OpenAI
client is configured, the parsed outcome of each backend call (one per call
site, content keyed by week index), the `random` streams, and the profile
store behind `get_user_business_context`. -/
structure Env where
  hasClient : Bool
  rhythm : Except Unit PyVal
  themes : Except Unit PyVal
  content : Nat → Except Unit PyVal
  rand : Nat → ℚ
  choiceIdx : Nat → Nat
  profile : String → Ctx

/-! ## AI planning helpers -/

/-- Funnel-band weight table of `select_stage_for_day` (`goal_weights`). -/
def goal_weights (g : String) : Option (ℚ × ℚ × ℚ) :=
  if g = "brand_awareness" then some (0.70, 0.20, 0.10)
  else if g = "leads" then some (0.30, 0.40, 0.30)
  else if g = "sales" then some (0.15, 0.35, 0.50)
  else if g = "community" then some (0.40, 0.20, 0.40)
  else none

/-- Uniform pick from a non-empty list, standing for `random.choice`; the
oracle supplies the chosen index. -/
def pickChoice (l : List String) (i : Nat) : String :=
  l.getD (i % l.length) ""

/-- `select_stage_for_day`: sums the weight triples of the recognized goals
(skipping unrecognized ones), averages them (uniform fallback when none
recognized), then places the draw `r` in the Top/Middle/Bottom band.  The
`random.random()` draw and the `random.choice` pick come from the oracle. -/
def select_stage_for_day (goals : List String) (context : Ctx) (r : ℚ) (ci : Nat) : String :=
  let acc := goals.foldl (fun (a : ℚ × ℚ × ℚ × Nat) g =>
    match goal_weights g.toLower with
    | some w => (a.1 + w.1, a.2.1 + w.2.1, a.2.2.1 + w.2.2, a.2.2.2 + 1)
    | none => a) (0, 0, 0, 0)
  let avg : ℚ × ℚ × ℚ :=
    if acc.2.2.2 = 0 then (0.33, 0.34, 0.33)
    else (acc.1 / (acc.2.2.2 : ℚ), acc.2.1 / (acc.2.2.2 : ℚ), acc.2.2.1 / (acc.2.2.2 : ℚ))
  if r < avg.1 then pickChoice ["hook", "pain", "reframe"] ci
  else if r < avg.1 + avg.2.1 then pickChoice ["mechanism", "proof"] ci
  else pickChoice ["objection", "cta", "retention"] ci

/-- `generate_smart_rhythm`: asks the backend for posting weekdays,
accepting the response only if it is a list of integers; every other
outcome (no client, exception, malformed value) returns the static
fallback table.  Total by construction: no exception escapes. -/
def generate_smart_rhythm (env : Env) (frequency platform : String) (context : Ctx) : List Int :=
  if !env.hasClient then
    if frequency = "high" then [0, 1, 2, 3, 4]
    else if frequency = "low" then [0, 3]
    else [0, 2, 4]
  else
    match env.rhythm with
    | .ok v =>
      match asIntList v with
      | some l => l
      | none =>
        if frequency = "high" then [0, 1, 2, 3, 4]
        else if frequency = "low" then [0, 3]
        else [0, 2, 4]
    | .error _ =>
      if frequency = "high" then [0, 1, 2, 3, 4]
      else if frequency = "low" then [0, 3]
      else [0, 2, 4]

/-- Synthetic week labels of `generate_weekly_themes`'s failure fallback. -/
def weekLabels (n : Nat) : List String :=
  (List.range n).map (fun i => "Week " ++ toString (i + 1))

/-- `generate_weekly_themes`: with no client, `num` copies of a goals-based
label; with a client, the response is accepted only if it is a list of
strings, exceptions and malformed values falling back to "Week i+1"
labels. -/
def generate_weekly_themes (env : Env) (num : Int) (goals_str : String) (context : Ctx) :
    List String :=
  if !env.hasClient then
    List.replicate num.toNat ("Focus: " ++ goals_str)
  else
    match env.themes with
    | .ok v =>
      match asStrList v with
      | some l => l
      | none => weekLabels num.toNat
    | .error _ => weekLabels num.toNat

/-- Ephemeral planned task (`{date, stage, theme, platform, calendar_id}`). -/
structure PlannedTask where
  date : Date
  stage : String
  theme : String
  platform : String
  calendar_id : Nat
deriving DecidableEq, Repr

/-- The composite batch key `f"{platform}_{stage}_{date.isoformat()}"`. -/
def taskKey (t : PlannedTask) : String :=
  t.platform ++ "_" ++ t.stage ++ "_" ++ t.date.iso

/-- Python `dict.get` on a parsed JSON object. -/
def dictGet (m : List (String × PyVal)) (k : String) : Option PyVal :=
  (m.find? (fun kv => kv.1 == k)).map (fun kv => kv.2)

/-- `generate_weekly_content_batch`: one backend call per week; the parsed
response is kept only if it is a JSON object, everything else (no client,
exception, non-object value) becoming the empty mapping.  The prompt built
from `tasks`/`theme`/`context`/`description` only affects the oracle's
reply, which the embedding keys by week index. -/
def generate_weekly_content_batch (env : Env) (week_idx : Nat) (tasks : List PlannedTask)
    (theme : String) (context : Ctx) (description : String) : List (String × PyVal) :=
  if !env.hasClient then []
  else
    match env.content week_idx with
    | .ok (.pyDict fields) => fields
    | .ok _ => []
    | .error _ => []

/-! ## Store model and the calendar header resolver -/

/-- Descriptive fields written by the header resolver (the `packet` dict). -/
structure HeaderPacket where
  campaign_name : String
  campaign_goal : String
  campaign_description : String
  frequency : String
  business_context : Ctx
  status : String
  is_organic_campaign : Bool
  campaign_end_date : Option Date
deriving DecidableEq, Repr

/-- A `social_media_calendars` row (month-level campaign header). -/
structure Header where
  hid : Nat
  user_id : String
  platform : String
  calendar_month : Date
  calendar_year : Nat
  start_date : Date
  packet : HeaderPacket
deriving DecidableEq, Repr

/-- A `calendar_entries` row (day-level planned post). -/
structure Entry where
  calendar_id : Nat
  user_id : String
  entry_date : Date
  platform : String
  content_type : String
  topic : PyVal
  campaign_phase : String
  intent_type : String
  weekly_theme : String
  content_theme : String
  status : String
  metadata : List (String × PyVal)

/-- The relational store: header and entry tables plus the id supply for
freshly inserted header rows. -/
structure Store where
  headers : List Header
  entries : List Entry
  nextId : Nat

/-- Lower bound of the header lookup: `date_obj.strftime("%Y-%m-01")`. -/
def monthWindowLo (d : Date) : Date := d.firstOfMonth

/-- Upper bound of the header lookup:
`(date_obj + timedelta(days=32)).strftime("%Y-%m-01")`. -/
def monthWindowHi (d : Date) : Date := (d.addDays 32).firstOfMonth

/-- Two dates lying in the same calendar month. -/
def sameMonth (a b : Date) : Prop := a.year = b.year ∧ a.month = b.month

instance (a b : Date) : Decidable (sameMonth a b) := by
  unfold sameMonth; infer_instance

/-- The half-open range check (`gte month_str`, `lt next_month_str`) the
resolver's store query performs on a stored `calendar_month` value. -/
def inMonthWindow (d m : Date) : Prop :=
  Date.le (monthWindowLo d) m ∧ Date.lt m (monthWindowHi d)

instance (d m : Date) : Decidable (inMonthWindow d m) := by
  unfold inMonthWindow; infer_instance

/-- The row predicate of the resolver's lookup query:
`eq user_id, eq platform.lower(), gte month_str, lt next_month_str`. -/
def headerMatch (user_id platform : String) (date_obj : Date) (h : Header) : Bool :=
  h.user_id == user_id && h.platform == platform.toLower &&
  decide (Date.le (monthWindowLo date_obj) h.calendar_month) &&
  decide (Date.lt h.calendar_month (monthWindowHi date_obj))

/-- The in-place `update(packet).eq("id", cal_id)` on one header row. -/
def updHeader (packet : HeaderPacket) (cal_id : Nat) (g : Header) : Header :=
  if g.hid == cal_id then { g with packet := packet } else g

/-- `resolve_or_create_calendar`: find-before-create of the monthly header.
Returns `(cal_id, was_created_new)` plus the written store.  The
backing-store-exception path returning `(None, False)` cannot arise in the
embedded store. -/
def resolve_or_create_calendar (s : Store) (user_id platform : String) (date_obj : Date)
    (name goal freq : String) (context : Ctx) (end_date : Option Date)
    (description : String) : Option Nat × Bool × Store :=
  let existing := s.headers.filter (headerMatch user_id platform date_obj)
  let packet : HeaderPacket :=
    { campaign_name := name, campaign_goal := goal, campaign_description := description,
      frequency := freq, business_context := context, status := "active",
      is_organic_campaign := true, campaign_end_date := end_date }
  match existing with
  | h :: _ =>
    (some h.hid, false,
     { s with headers := s.headers.map (updHeader packet h.hid) })
  | [] =>
    let nh : Header :=
      { hid := s.nextId, user_id := user_id, platform := platform.toLower,
        calendar_month := monthWindowLo date_obj, calendar_year := date_obj.year,
        start_date := date_obj, packet := packet }
    (some s.nextId, true, { s with headers := s.headers ++ [nh], nextId := s.nextId + 1 })

/-! ## The master planning function -/

/-- A `create_organic_campaign_manual` payload restricted to the fields the
function reads.  Values are typed (the `isinstance` normalization branches
are identities on well-typed payloads); date strings are carried pre-parsed,
with `strptime` failure corresponding to `none`. -/
structure Payload where
  user_id : Option String := none
  goals : Option (List String) := none
  goal : Option String := none
  campaign_goal : Option String := none
  name : Option String := none
  description : Option String := none
  campaign_description : Option String := none
  platforms : Option (List String) := none
  platform : Option String := none
  start_date : Option Date := none
  end_date : Option Date := none
  duration_days : Option Nat := none
  duration : Option Nat := none
  days : Option Nat := none
  frequency : Option String := none

/-- Python `a or b` for an optional string (empty string is falsy). -/
def orFalsyStr (o : Option String) (d : String) : String :=
  match o with
  | some s => if s = "" then d else s
  | none => d

/-- Python `a or b` for an optional count (0 is falsy). -/
def orFalsyNat (o : Option Nat) (d : Nat) : Nat :=
  match o with
  | some n => if n = 0 then d else n
  | none => d

/-- goals extraction:
`payload.get("goals") or [payload.get("goal") or payload.get("campaign_goal") or "brand_awareness"]`. -/
def goalsOf (p : Payload) : List String :=
  let single := orFalsyStr p.goal (orFalsyStr p.campaign_goal "brand_awareness")
  match p.goals with
  | some l => if l = [] then [single] else l
  | none => [single]

/-- platforms extraction:
`payload.get("platforms") or ([payload.get("platform")] if payload.get("platform") else [])`. -/
def platformsOf (p : Payload) : List String :=
  let fb := match p.platform with
    | some s => if s = "" then [] else [s]
    | none => []
  match p.platforms with
  | some l => if l = [] then fb else l
  | none => fb

/-- description extraction:
`payload.get("description") or payload.get("campaign_description", "")`. -/
def descOf (p : Payload) : String :=
  orFalsyStr p.description (p.campaign_description.getD "")

/-- End-date and duration extraction with the source's priority (explicit
end_date, then duration_days, duration, days, default 30).  The duration is
in days and is negative when an explicit end date precedes the start. -/
def endDurationOf (p : Payload) (start : Date) : Date × Int :=
  match p.end_date with
  | some e => (e, (e.toOrdinal : Int) - (start.toOrdinal : Int))
  | none =>
    let dur := orFalsyNat p.duration_days (orFalsyNat p.duration (orFalsyNat p.days 30))
    (start.addDays dur, (dur : Int))

/-- Python list access `lst[i]` with negative-index wrapping; `none` is an
`IndexError`. -/
def pyIdx {α : Type} (l : List α) (i : Int) : Option α :=
  let j := if i < 0 then i + l.length else i
  if 0 ≤ j ∧ j < (l.length : Int) then l.get? j.toNat else none

/-- `weekly_batches.setdefault(week_idx, []).append(task)`: append into an
existing week bucket or open a new one at the end (dict insertion order). -/
def setdefaultAppend : List (Nat × List PlannedTask) → Nat → PlannedTask →
    List (Nat × List PlannedTask)
  | [], k, t => [(k, [t])]
  | e :: rest, k, t =>
    if e.1 = k then (e.1, e.2 ++ [t]) :: rest
    else e :: setdefaultAppend rest k t

/-- Dict insert-or-overwrite (`calendar_map[plat] = cal_id`). -/
def dictSet : List (String × Nat) → String → Nat → List (String × Nat)
  | [], k, v => [(k, v)]
  | e :: rest, k, v =>
    if e.1 = k then (k, v) :: rest
    else e :: dictSet rest k v

/-- Dict lookup (`plat in calendar_map` and `calendar_map[plat]`). -/
def dictFind (m : List (String × Nat)) (k : String) : Option Nat :=
  (m.find? (fun kv => kv.1 == k)).map (fun kv => kv.2)

/-- One iteration of the `while current <= end_date` slot loop at day-offset
`i`: filter by rhythm, draw the stage, clamp-index the theme, then append
one task per platform present in `calendar_map`.  The accumulator counts
consumed `random` draws; `none` records an `IndexError` raised by the theme
lookup. -/
def slotStep (goals : List String) (bctx : Ctx) (platforms : List String)
    (calendar_map : List (String × Nat)) (schedule_days : List Int)
    (themes : List String) (start : Date) (rand : Nat → ℚ) (ci : Nat → Nat)
    (acc : Option (Nat × List (Nat × List PlannedTask))) (i : Nat) :
    Option (Nat × List (Nat × List PlannedTask)) :=
  match acc with
  | none => none
  | some (k, batches) =>
    let current := start.addDays i
    if ((current.weekday : Int) ∈ schedule_days) then
      let stage := select_stage_for_day goals bctx (rand k) (ci k)
      let week_idx := i / 7
      match pyIdx themes (min (week_idx : Int) ((themes.length : Int) - 1)) with
      | none => none
      | some theme =>
        some (k + 1, platforms.foldl (fun b plat =>
          match dictFind calendar_map plat with
          | some cid => setdefaultAppend b week_idx
              { date := current, stage := stage, theme := theme,
                platform := plat, calendar_id := cid }
          | none => b) batches)
    else some (k, batches)

/-- Iteration count of the `while current <= end_date` loop (inclusive
bounds; day `i` of the loop is `start + timedelta(days=i)`). -/
def loopCount (start endD : Date) : Nat := endD.toOrdinal + 1 - start.toOrdinal

/-- The slot-planner loop: weekly batches in dict insertion order, or `none`
when the theme lookup raised an `IndexError`. -/
def buildBatches (goals : List String) (bctx : Ctx) (platforms : List String)
    (calendar_map : List (String × Nat)) (schedule_days : List Int)
    (themes : List String) (start : Date) (count : Nat) (rand : Nat → ℚ)
    (ci : Nat → Nat) : Option (List (Nat × List PlannedTask)) :=
  ((List.range count).foldl
    (slotStep goals bctx platforms calendar_map schedule_days themes start rand ci)
    (some (0, []))).map (fun kb => kb.2)

/-- Entry record built from one task and its generated content object. -/
def mkEntry (uid : String) (t : PlannedTask) (data : List (String × PyVal)) : Entry :=
  { calendar_id := t.calendar_id, user_id := uid, entry_date := t.date,
    platform := t.platform,
    content_type := (pyStrOf ((dictGet data "format").getD (.pyStr "static"))).toLower,
    topic := (dictGet data "topic").getD (.pyStr "Post"),
    campaign_phase := t.stage, intent_type := t.stage,
    weekly_theme := t.theme, content_theme := t.theme,
    status := "planned", metadata := data }

/-- The per-week generation and reconciliation loop: one batch call per
non-empty week, then per-task key lookup, skipping tasks whose key is
absent or whose value is not a non-empty object. -/
def buildEntries (env : Env) (uid descr : String) (bctx : Ctx)
    (batches : List (Nat × List PlannedTask)) : List Entry :=
  batches.flatMap (fun wts =>
    match wts.2 with
    | [] => []
    | t0 :: _ =>
      let content_map := generate_weekly_content_batch env wts.1 wts.2 t0.theme bctx descr
      wts.2.filterMap (fun t =>
        match dictGet content_map (taskKey t) with
        | some (.pyDict fields) =>
          if fields.isEmpty then none else some (mkEntry uid t fields)
        | _ => none))

/-- One iteration of the per-platform header-resolution loop: resolve the
platform's header, record the id in `calendar_map`, and track freshly
created ids; a `None` id would skip the platform. -/
def resolveStep (uid : String) (start : Date) (nm gl fr : String) (bctx : Ctx)
    (ed : Option Date) (ds : String)
    (acc : List (String × Nat) × List Nat × Store) (plat : String) :
    List (String × Nat) × List Nat × Store :=
  let r := resolve_or_create_calendar acc.2.2 uid plat start nm gl fr bctx ed ds
  match r.1 with
  | some cid =>
    (dictSet acc.1 plat cid, if r.2.1 then acc.2.1 ++ [cid] else acc.2.1, r.2.2)
  | none => acc

/-- The per-platform header-resolution loop of the master function,
collecting `calendar_map` and `newly_created_ids`. -/
def resolveAll (s : Store) (uid : String) (plats : List String) (start : Date)
    (nm gl fr : String) (bctx : Ctx) (ed : Option Date) (ds : String) :
    List (String × Nat) × List Nat × Store :=
  plats.foldl (resolveStep uid start nm gl fr bctx ed ds) ([], [], s)

/-- Fixed-size chunking of the entry list (`range(0, len, chunk_size)`). -/
def chunksOf (n : Nat) : List Entry → List (List Entry)
  | [] => []
  | x :: xs => (x :: xs).take n :: chunksOf n (xs.drop (n - 1))
termination_by l => l.length
decreasing_by simp [List.length_drop]; omega

/-- Chunked bulk insert (`for i in range(0, len(entries), 50): insert`). -/
def insertChunks (n : Nat) (tbl : List Entry) (es : List Entry) : List Entry :=
  (chunksOf n es).foldl (fun a c => a ++ c) tbl

/-- Shape of the result dict of `create_organic_campaign_manual`. -/
structure RunOutcome where
  error : Option String := none
  message : Option String := none
  post_count : Nat := 0
  weekly_themes : List String := []
  calendar_id : Option Nat := none
deriving DecidableEq, Repr

/-- A finished run either returned a result dict or raised. -/
inductive RunRes where
  | res (r : RunOutcome)
  | exn (msg : String)
deriving DecidableEq, Repr

/-- The `error` field of a run (an exception reported as its message). -/
def RunRes.errorOf : RunRes → Option String
  | .res r => r.error
  | .exn m => some m

/-- The `post_count` field of a run result. -/
def RunRes.postCountOf : RunRes → Nat
  | .res r => r.post_count
  | .exn _ => 0

/-- `create_organic_campaign_manual`: the full planning workflow against the
embedded store, parameterized by the oracle and by `date.today()`. -/
def create_organic_campaign_manual (env : Env) (today : Date) (s : Store)
    (p : Payload) : Store × RunRes :=
  match p.user_id with
  | none => (s, .res { error := some "Missing user_id", post_count := 0 })
  | some uid =>
    let goals := goalsOf p
    let nm := p.name.getD "Smart Campaign"
    let descr := descOf p
    let platforms := platformsOf p
    if platforms.isEmpty then
      (s, .res { error := some "No platforms provided.", post_count := 0 })
    else
      let start := p.start_date.getD today
      let ed := endDurationOf p start
      let frequency := p.frequency.getD "medium"
      let bctx := env.profile uid
      let rz := resolveAll s uid platforms start nm (goals.headD "") frequency bctx
        (some ed.1) descr
      if rz.1.isEmpty then
        (rz.2.2, .res { error := some "Failed to initialize headers.", post_count := 0 })
      else
        let schedule_days := generate_smart_rhythm env frequency (platforms.headD "") bctx
        let themes := generate_weekly_themes env (ed.2.fdiv 7 + 2)
          (String.intercalate ", " goals) bctx
        match buildBatches goals bctx platforms rz.1 schedule_days themes start
          (loopCount start ed.1) env.rand env.choiceIdx with
        | none => (rz.2.2, .exn "IndexError")
        | some batches =>
          let entries := buildEntries env uid descr bctx batches
          if entries.isEmpty then
            ({ rz.2.2 with headers :=
                 rz.2.2.headers.filter (fun h => !(rz.2.1.contains h.hid)) },
             .res { error := some "AI generation failed.", post_count := 0 })
          else
            ({ rz.2.2 with entries := insertChunks 50 rz.2.2.entries entries },
             .res { message := some ("Success! " ++ toString entries.length ++ " posts added."),
                    post_count := entries.length,
                    weekly_themes := themes,
                    calendar_id := some (rz.1.headD ("", 0)).2 })

/-! ## Derived notions used by the theorems -/

/-- The single mapping a week's batch call will yield (the reply depends
only on the oracle's per-week response, not on the prompt). -/
def wkContent (env : Env) (w : Nat) : List (String × PyVal) :=
  generate_weekly_content_batch env w [] "" [] ""

/-- A batch response fully covers a week: every task's key maps to a
non-empty object. -/
def goodWeekB (env : Env) (w : Nat) (ts : List PlannedTask) : Bool :=
  ts.all (fun t =>
    match dictGet (wkContent env w) (taskKey t) with
    | some (.pyDict fields) => !fields.isEmpty
    | _ => false)

/-- The entry a fully covered task materializes into. -/
def entryFor (env : Env) (w : Nat) (uid : String) (t : PlannedTask) : Entry :=
  mkEntry uid t (match dictGet (wkContent env w) (taskKey t) with
    | some (.pyDict fields) => fields
    | _ => [])

/-- Entries contributed by the fully covered weeks. -/
def coveredEntries (env : Env) (uid : String)
    (batches : List (Nat × List PlannedTask)) : List Entry :=
  batches.flatMap (fun wts =>
    if goodWeekB env wts.1 wts.2 then wts.2.map (entryFor env wts.1 uid) else [])

/-- Well-formed store: header ids below the id supply and stored month
anchors valid. -/
def StoreWF (s : Store) : Prop :=
  (∀ h ∈ s.headers, h.hid < s.nextId) ∧ (∀ h ∈ s.headers, h.calendar_month.valid)

/-- Backend outcome the rhythm planner refuses: an exception, or a value
that is not a list of integers. -/
def rhythmRejected (e : Except Unit PyVal) : Prop :=
  match e with
  | .error _ => True
  | .ok v => asIntList v = none

/-- Backend outcome the theme sequencer refuses. -/
def themesRejected (e : Except Unit PyVal) : Prop :=
  match e with
  | .error _ => True
  | .ok v => asStrList v = none

/-- Spec-side blended weights of §4.4: the average of the recognized goals'
triples, or uniform 0.33/0.34/0.33 when none are recognized. -/
def avgWeights (goals : List String) : ℚ × ℚ × ℚ :=
  let recog := goals.filterMap (fun g => goal_weights g.toLower)
  if recog = [] then (0.33, 0.34, 0.33)
  else ((recog.map (fun w => w.1)).sum / (recog.length : ℚ),
        (recog.map (fun w => w.2.1)).sum / (recog.length : ℚ),
        (recog.map (fun w => w.2.2)).sum / (recog.length : ℚ))

/-- The (platform, entry_date, stage) triple of a persisted entry. -/
def entryTriple (e : Entry) : String × Date × String :=
  (e.platform, e.entry_date, e.campaign_phase)

/-- The (platform, date, stage) triple of a planned task. -/
def taskTriple (t : PlannedTask) : String × Date × String :=
  (t.platform, t.date, t.stage)

/-- Oracle with no configured client and every call failing. -/
def envDown : Env :=
  { hasClient := false, rhythm := Except.error (), themes := Except.error (),
    content := fun _ => Except.error (), rand := fun _ => 0, choiceIdx := fun _ => 0,
    profile := fun _ => [] }

/-- Oracle with a client whose every call raises. -/
def envErrAll : Env :=
  { hasClient := true, rhythm := Except.error (), themes := Except.error (),
    content := fun _ => Except.error (), rand := fun _ => 0, choiceIdx := fun _ => 0,
    profile := fun _ => [] }

/-- Number of stored headers for a (user, platform, month) triple. -/
def countMonth (s : Store) (u plat : String) (d : Date) : Nat :=
  (s.headers.filter (fun h => h.user_id == u && h.platform == plat.toLower &&
    decide (sameMonth h.calendar_month d))).length

/-- Empty store fixture. -/
def store0 : Store := ⟨[], [], 0⟩

/-- First resolver call of the C7 witness. -/
def c7r1 : Option Nat × Bool × Store :=
  resolve_or_create_calendar store0 "u1" "instagram" ⟨2024, 6, 3⟩ "n" "sales" "low" [] none ""

/-- Second resolver call of the C7 witness. -/
def c7r2 : Option Nat × Bool × Store :=
  resolve_or_create_calendar c7r1.2.2 "u1" "instagram" ⟨2024, 6, 3⟩ "n" "sales" "low" [] none ""

/-- Concrete request used by the run-level witnesses: one platform, one
goal, an 8-day window starting 2024-06-03. -/
def p1 : Payload :=
  { user_id := some "u1", goals := some ["sales"], platforms := some ["instagram"],
    start_date := some ⟨2024, 6, 3⟩, duration_days := some 8, frequency := some "low" }

/-- Oracle for the C3 witness: backend up, rhythm and theme calls raise,
the week-0 content call fully covers its two tasks, later weeks raise. -/
def envC3 : Env :=
  { hasClient := true, rhythm := Except.error (), themes := Except.error (),
    content := fun w => if w = 0 then
        Except.ok (.pyDict
          [("instagram_hook_2024-06-03", .pyDict [("caption", .pyStr "a")]),
           ("instagram_hook_2024-06-06", .pyDict [("caption", .pyStr "b")])])
      else Except.error (),
    rand := fun _ => 0, choiceIdx := fun _ => 0, profile := fun _ => [] }

/-- The slot-planner output for `envC3` / `p1` / `store0`. -/
def c3batches : List (Nat × List PlannedTask) :=
  [(0, [⟨⟨2024, 6, 3⟩, "hook", "Week 1", "instagram", 0⟩,
        ⟨⟨2024, 6, 6⟩, "hook", "Week 1", "instagram", 0⟩]),
   (1, [⟨⟨2024, 6, 10⟩, "hook", "Week 2", "instagram", 0⟩])]

/-- Oracle for the C2 theorems: backend up, rhythm and theme calls raise,
the content calls for weeks 0 and 1 cover all three planned tasks. -/
def envC2 : Env :=
  { hasClient := true, rhythm := Except.error (), themes := Except.error (),
    content := fun w =>
      if w = 0 then Except.ok (.pyDict
        [("instagram_hook_2024-06-03", .pyDict [("caption", .pyStr "a")]),
         ("instagram_hook_2024-06-06", .pyDict [("caption", .pyStr "b")])])
      else if w = 1 then Except.ok (.pyDict
        [("instagram_hook_2024-06-10", .pyDict [("caption", .pyStr "c")])])
      else Except.error (),
    rand := fun _ => 0, choiceIdx := fun _ => 0, profile := fun _ => [] }

/-- The spec's C2 example request: `p1` with `duration_days = 7`. -/
def p2 : Payload := { p1 with duration_days := some 7 }

/-- The slot-planner output for the C2 example request. -/
def c2batches : List (Nat × List PlannedTask) :=
  [(0, [⟨⟨2024, 6, 3⟩, "hook", "Week 1", "instagram", 0⟩,
        ⟨⟨2024, 6, 6⟩, "hook", "Week 1", "instagram", 0⟩]),
   (1, [⟨⟨2024, 6, 10⟩, "hook", "Week 2", "instagram", 0⟩])]

/-- Oracle for the C10 counterexample: the theme call returns an accepted
but empty list. -/
def envC10 : Env :=
  { hasClient := true, rhythm := Except.error (), themes := Except.ok (.pyList []),
    content := fun _ => Except.error (), rand := fun _ => 0, choiceIdx := fun _ => 0,
    profile := fun _ => [] }

/-- All planned tasks of a week-batch dict, in bucket order. -/
def flatTasks (b : List (Nat × List PlannedTask)) : List PlannedTask :=
  b.flatMap (fun wts => wts.2)

/-- The tasks one scheduled day contributes: one per platform whose header
resolution succeeded. -/
def dayTasks (platforms : List String) (cm : List (String × Nat))
    (current : Date) (stage theme : String) : List PlannedTask :=
  platforms.filterMap (fun plat => (dictFind cm plat).map
    (fun cid => ⟨current, stage, theme, plat, cid⟩))

-- FIXTURES-MARKER

/-! ## Theorems -/

/-- Months always have between 28 and 31 days. -/
theorem daysInMonth_bounds (y m : Nat) : 28 ≤ daysInMonth y m ∧ daysInMonth y m ≤ 31 := by
  unfold daysInMonth
  split <;> [skip; split] <;> first
  | (constructor <;> omega)
  | (split <;> omega)

theorem Date.succ_of_day_lt {d : Date} (h : d.day < daysInMonth d.year d.month) :
    d.succ = ⟨d.year, d.month, d.day + 1⟩ := by
  unfold Date.succ; simp [h]

theorem Date.succ_of_day_eq {d : Date} (h : ¬ d.day < daysInMonth d.year d.month) :
    d.succ = nextMonthFirst d := by
  unfold Date.succ nextMonthFirst
  simp [h]

/-- Staying inside one month: adding `n` days only bumps the day field. -/
theorem Date.addDays_stay {d : Date} {n : Nat}
    (h : d.day + n ≤ daysInMonth d.year d.month) :
    d.addDays n = ⟨d.year, d.month, d.day + n⟩ := by
  induction n with
  | zero => simp [Date.addDays]
  | succ k ih =>
    have hk : d.day + k ≤ daysInMonth d.year d.month := by omega
    have hlt : d.day + k < daysInMonth d.year d.month := by omega
    show (d.addDays k).succ = _
    rw [ih hk]
    rw [Date.succ_of_day_lt (d := ⟨d.year, d.month, d.day + k⟩) hlt]
    simp
    omega

theorem Date.addDays_add (d : Date) (m n : Nat) :
    d.addDays (m + n) = (d.addDays m).addDays n := by
  induction n with
  | zero => rfl
  | succ k ih =>
    show ((d.addDays (m + k)).succ) = ((d.addDays m).addDays k).succ
    rw [ih]

theorem daysBeforeMonth_step {y m : Nat} (h1 : 1 ≤ m) (h2 : m ≤ 11) :
    daysBeforeMonth y (m + 1) = daysBeforeMonth y m + daysInMonth y m := by
  interval_cases m <;>
    simp [daysBeforeMonth, daysInMonth] <;> split_ifs <;> simp_all

set_option maxHeartbeats 1000000
set_option maxRecDepth 4000

theorem daysBeforeYear_step {y : Nat} (h : 1 ≤ y) :
    daysBeforeYear (y + 1) = daysBeforeYear y + 334 + (if isLeap y then 1 else 0) + 31 := by
  unfold daysBeforeYear
  simp only [Nat.add_sub_cancel]
  split_ifs with hl
  · simp only [isLeap, Bool.or_eq_true, Bool.and_eq_true, beq_iff_eq, bne_iff_ne] at hl
    omega
  · simp only [isLeap, Bool.or_eq_true, Bool.and_eq_true, beq_iff_eq, bne_iff_ne] at hl
    push_neg at hl
    omega

/-- Stepping one day preserves validity and increments the Python ordinal. -/
theorem Date.succ_valid_toOrdinal {d : Date} (h : d.valid) :
    d.succ.valid ∧ d.succ.toOrdinal = d.toOrdinal + 1 := by
  obtain ⟨hy, hm1, hm2, hd1, hd2⟩ := h
  by_cases hlt : d.day < daysInMonth d.year d.month
  · rw [Date.succ_of_day_lt hlt]
    constructor
    · simp only [Date.valid]
      exact ⟨hy, hm1, hm2, by omega, by omega⟩
    · simp only [Date.toOrdinal]
      omega
  · rw [Date.succ_of_day_eq hlt]
    have hde : d.day = daysInMonth d.year d.month := by omega
    unfold nextMonthFirst
    by_cases hm : d.month < 12
    · simp only [hm, if_true]
      have hstep := daysBeforeMonth_step (y := d.year) (m := d.month) hm1 (by omega)
      have hb := daysInMonth_bounds d.year (d.month + 1)
      constructor
      · simp only [Date.valid]
        exact ⟨hy, by omega, by omega, by omega, by omega⟩
      · simp only [Date.toOrdinal]
        rw [hstep]
        omega
    · simp only [hm, if_false]
      have hm12 : d.month = 12 := by omega
      have hstep := daysBeforeYear_step (y := d.year) hy
      have hb := daysInMonth_bounds (d.year + 1) 1
      constructor
      · simp only [Date.valid]
        exact ⟨by omega, by omega, by omega, by omega, by omega⟩
      · have hbmJan : daysBeforeMonth (d.year + 1) 1 = 0 := by simp [daysBeforeMonth]
        have hbm12 : daysBeforeMonth d.year 12 = 334 + (if isLeap d.year then 1 else 0) := by
          simp [daysBeforeMonth]
        have hdim12 : daysInMonth d.year 12 = 31 := by simp [daysInMonth]
        simp only [Date.toOrdinal]
        rw [hbmJan]
        rw [hm12, hbm12]
        rw [hm12, hdim12] at hde
        omega

/-- Adding days preserves validity and adds to the Python ordinal. -/
theorem Date.addDays_valid_toOrdinal {d : Date} (h : d.valid) (n : Nat) :
    (d.addDays n).valid ∧ (d.addDays n).toOrdinal = d.toOrdinal + n := by
  induction n with
  | zero => exact ⟨h, rfl⟩
  | succ k ih =>
    have hs := Date.succ_valid_toOrdinal ih.1
    refine ⟨hs.1, ?_⟩
    rw [show d.addDays (k + 1) = (d.addDays k).succ from rfl, hs.2, ih.2]
    omega

/-- Day offsets from a valid start date give distinct dates. -/
theorem Date.addDays_ne {d : Date} (h : d.valid) {i j : Nat} (hij : i ≠ j) :
    d.addDays i ≠ d.addDays j := by
  intro he
  have hi := (Date.addDays_valid_toOrdinal h i).2
  have hj := (Date.addDays_valid_toOrdinal h j).2
  rw [he] at hi
  omega

theorem nextMonthFirst_day (d : Date) : (nextMonthFirst d).day = 1 := by
  unfold nextMonthFirst; split <;> rfl

theorem nextMonthFirst_valid {d : Date} (hy : 1 ≤ d.year) (hm1 : 1 ≤ d.month)
    (hm2 : d.month ≤ 12) : (nextMonthFirst d).valid := by
  have h1 := daysInMonth_bounds d.year (d.month + 1)
  have h2 := daysInMonth_bounds (d.year + 1) 1
  unfold nextMonthFirst
  split <;> simp only [Date.valid] <;> omega

theorem Date.addDays_to_nextFirst {d : Date} (h : d.valid) :
    d.addDays (daysInMonth d.year d.month - d.day + 1) = nextMonthFirst d := by
  obtain ⟨hy, hm1, hm2, hd1, hd2⟩ := h
  have h1 : d.addDays (daysInMonth d.year d.month - d.day) =
      ⟨d.year, d.month, daysInMonth d.year d.month⟩ := by
    rw [Date.addDays_stay (by omega)]
    congr 1
    omega
  rw [show daysInMonth d.year d.month - d.day + 1 =
      (daysInMonth d.year d.month - d.day) + 1 from rfl]
  show (d.addDays (daysInMonth d.year d.month - d.day)).succ = _
  rw [h1]
  rw [Date.succ_of_day_eq (by simp)]
  simp [nextMonthFirst]

/-- Adding 32 days from a valid date lands in the next month when enough days
remain there, with the expected day-of-month. -/
theorem Date.addDays32_inNext {d : Date} (h : d.valid)
    (hc : d.day + 32 ≤ daysInMonth d.year d.month +
      daysInMonth (nextMonthFirst d).year (nextMonthFirst d).month) :
    d.addDays 32 = ⟨(nextMonthFirst d).year, (nextMonthFirst d).month,
      d.day + 32 - daysInMonth d.year d.month⟩ := by
  obtain ⟨hy, hm1, hm2, hd1, hd2⟩ := h
  have hb := daysInMonth_bounds d.year d.month
  have hsplit : 32 = (daysInMonth d.year d.month - d.day + 1) +
      (31 - (daysInMonth d.year d.month - d.day)) := by omega
  rw [hsplit, Date.addDays_add, Date.addDays_to_nextFirst ⟨hy, hm1, hm2, hd1, hd2⟩]
  have hnv := nextMonthFirst_valid hy hm1 hm2
  have hday1 : (nextMonthFirst d).day = 1 := nextMonthFirst_day d
  rw [Date.addDays_stay (by omega)]
  congr 1
  omega

/-- Adding 32 days from a valid date can skip over the whole next month (short
next month, late anchor day); then it lands in the month after next. -/
theorem Date.addDays32_inSecond {d : Date} (h : d.valid)
    (hc : ¬ d.day + 32 ≤ daysInMonth d.year d.month +
      daysInMonth (nextMonthFirst d).year (nextMonthFirst d).month) :
    d.addDays 32 = ⟨(nextMonthFirst (nextMonthFirst d)).year,
      (nextMonthFirst (nextMonthFirst d)).month,
      d.day + 32 - daysInMonth d.year d.month -
        daysInMonth (nextMonthFirst d).year (nextMonthFirst d).month⟩ := by
  obtain ⟨hy, hm1, hm2, hd1, hd2⟩ := h
  have hb := daysInMonth_bounds d.year d.month
  have hnv := nextMonthFirst_valid hy hm1 hm2
  obtain ⟨hy1, hm11, hm12, hd11, hd12⟩ := hnv
  have hb1 := daysInMonth_bounds (nextMonthFirst d).year (nextMonthFirst d).month
  have hday1 : (nextMonthFirst d).day = 1 := nextMonthFirst_day d
  have hsplit : 32 = (daysInMonth d.year d.month - d.day + 1) +
      (31 - (daysInMonth d.year d.month - d.day)) := by omega
  rw [hsplit, Date.addDays_add, Date.addDays_to_nextFirst ⟨hy, hm1, hm2, hd1, hd2⟩]
  have hnn := Date.addDays_to_nextFirst (d := nextMonthFirst d) ⟨hy1, hm11, hm12, hd11, hd12⟩
  rw [hday1] at hnn
  have hsplit2 : 31 - (daysInMonth d.year d.month - d.day) =
      (daysInMonth (nextMonthFirst d).year (nextMonthFirst d).month - 1 + 1) +
      (31 - (daysInMonth d.year d.month - d.day) -
        daysInMonth (nextMonthFirst d).year (nextMonthFirst d).month) := by omega
  rw [hsplit2, Date.addDays_add]
  rw [hnn]
  have hnv2 := nextMonthFirst_valid hy1 hm11 hm12
  have hb2 := daysInMonth_bounds (nextMonthFirst (nextMonthFirst d)).year
    (nextMonthFirst (nextMonthFirst d)).month
  have hday2 : (nextMonthFirst (nextMonthFirst d)).day = 1 :=
    nextMonthFirst_day (nextMonthFirst d)
  rw [Date.addDays_stay (by omega)]
  congr 1
  omega

/-- C4: whenever the generative backend is unavailable, or its call raises,
or it returns anything that is not a list of integers, the rhythm planner
returns exactly the static fallback table (high ↦ [0,1,2,3,4],
low ↦ [0,3], otherwise [0,2,4]); being a total function of the oracle
outcome, this path can propagate no exception to the caller. -/
theorem rhythm_static_fallback (env : Env) (frequency platform : String) (ctx : Ctx)
    (h : env.hasClient = false ∨ rhythmRejected env.rhythm) :
    generate_smart_rhythm env frequency platform ctx =
      (if frequency = "high" then [0, 1, 2, 3, 4]
       else if frequency = "low" then [0, 3] else [0, 2, 4]) := by
  unfold generate_smart_rhythm
  rcases h with h | h
  · rw [h]
    simp
  · unfold rhythmRejected at h
    cases hc : env.hasClient
    · simp
    · cases he : env.rhythm with
      | error u => simp
      | ok v =>
        rw [he] at h
        simp [h]

/-- Witness for C4: a raised backend call with frequency "medium" yields the
[0,2,4] fallback. -/
theorem rhythm_static_fallback_case :
    generate_smart_rhythm envErrAll "medium" "instagram" [] = [0, 2, 4] :=
  (rhythm_static_fallback envErrAll "medium" "instagram" []
    (Or.inr trivial)).trans (by decide)

/-- C5 (counterexample): with the backend unavailable the theme fallback is
"Focus: ..." labels, not the "Week N" labels the claim asserts. -/
theorem themes_unavailable_cex :
    generate_weekly_themes envDown 2 "sales" [] = ["Focus: sales", "Focus: sales"] ∧
    generate_weekly_themes envDown 2 "sales" [] ≠ weekLabels 2 := by
  constructor
  · rfl
  · decide

/-- C5 (amended): for week count N ≥ 1 the fallback always returns exactly N
items: N "Week 1".."Week N" labels when a configured backend call fails or
does not yield a list of strings, and N copies of "Focus: goals" when the
backend is unavailable. -/
theorem themes_fallback_shape (env : Env) (n : Nat) (g : String) (ctx : Ctx)
    (hn : 1 ≤ n) (hbad : env.hasClient = false ∨ themesRejected env.themes) :
    (generate_weekly_themes env (n : Int) g ctx).length = n ∧
    (env.hasClient = false →
      generate_weekly_themes env (n : Int) g ctx = List.replicate n ("Focus: " ++ g)) ∧
    (env.hasClient = true →
      generate_weekly_themes env (n : Int) g ctx = weekLabels n) := by
  have htn : (n : Int).toNat = n := Int.toNat_natCast n
  unfold generate_weekly_themes
  rcases hbad with h | h
  · rw [h]
    simp [htn, weekLabels]
  · unfold themesRejected at h
    cases hc : env.hasClient
    · simp [htn]
    · cases he : env.themes with
      | error u => simp [htn, weekLabels]
      | ok v =>
        rw [he] at h
        simp [h, htn, weekLabels]

/-- Witness for C5's amended theorem at N = 3 with a raised call. -/
theorem themes_fallback_shape_case :
    (generate_weekly_themes envErrAll (3 : Nat) "sales" []).length = 3 ∧
    (envErrAll.hasClient = false →
      generate_weekly_themes envErrAll (3 : Nat) "sales" [] =
        List.replicate 3 ("Focus: " ++ "sales")) ∧
    (envErrAll.hasClient = true →
      generate_weekly_themes envErrAll (3 : Nat) "sales" [] = weekLabels 3) :=
  themes_fallback_shape envErrAll 3 "sales" [] (by decide) (Or.inr trivial)

theorem pickChoice_mem {l : List String} (hl : l ≠ []) (i : Nat) : pickChoice l i ∈ l := by
  unfold pickChoice
  have hlen : 0 < l.length := List.length_pos.mpr hl
  have hmod : i % l.length < l.length := Nat.mod_lt _ hlen
  rw [List.getD_eq_getElem?_getD, List.getElem?_eq_getElem hmod]
  exact List.getElem_mem hmod

theorem stage_fold_spec (goals : List String) (a : ℚ × ℚ × ℚ × Nat) :
    goals.foldl (fun (a : ℚ × ℚ × ℚ × Nat) g =>
      match goal_weights g.toLower with
      | some w => (a.1 + w.1, a.2.1 + w.2.1, a.2.2.1 + w.2.2, a.2.2.2 + 1)
      | none => a) a =
    (a.1 + ((goals.filterMap (fun g => goal_weights g.toLower)).map (fun w => w.1)).sum,
     a.2.1 + ((goals.filterMap (fun g => goal_weights g.toLower)).map (fun w => w.2.1)).sum,
     a.2.2.1 + ((goals.filterMap (fun g => goal_weights g.toLower)).map (fun w => w.2.2)).sum,
     a.2.2.2 + (goals.filterMap (fun g => goal_weights g.toLower)).length) := by
  induction goals generalizing a with
  | nil => simp
  | cons g gs ih =>
    simp only [List.foldl_cons, List.filterMap_cons]
    cases hw : goal_weights g.toLower with
    | none =>
      rw [ih]
    | some w =>
      rw [ih]
      simp only [List.map_cons, List.sum_cons, List.length_cons, Prod.mk.injEq]
      refine ⟨by ring, by ring, by ring, by omega⟩

theorem goal_weights_nonneg {g : String} {w : ℚ × ℚ × ℚ} (h : goal_weights g = some w) :
    0 ≤ w.1 ∧ 0 ≤ w.2.1 := by
  unfold goal_weights at h
  split_ifs at h <;> simp_all <;> subst h <;> norm_num

theorem avgWeights_nonneg (goals : List String) :
    0 ≤ (avgWeights goals).1 ∧ 0 ≤ (avgWeights goals).2.1 := by
  unfold avgWeights
  dsimp only
  split_ifs with h
  · norm_num
  · constructor
    · apply div_nonneg
      · apply List.sum_nonneg
        intro x hx
        simp only [List.mem_map] at hx
        obtain ⟨w, hw, rfl⟩ := hx
        simp only [List.mem_filterMap] at hw
        obtain ⟨g, hg, hgw⟩ := hw
        exact (goal_weights_nonneg hgw).1
      · exact_mod_cast Nat.zero_le _
    · apply div_nonneg
      · apply List.sum_nonneg
        intro x hx
        simp only [List.mem_map] at hx
        obtain ⟨w, hw, rfl⟩ := hx
        simp only [List.mem_filterMap] at hw
        obtain ⟨g, hg, hgw⟩ := hw
        exact (goal_weights_nonneg hgw).2
      · exact_mod_cast Nat.zero_le _

theorem stage_avg_eq (goals : List String) (ctx : Ctx) (r : ℚ) (ci : Nat) :
    select_stage_for_day goals ctx r ci =
      (if r < (avgWeights goals).1 then pickChoice ["hook", "pain", "reframe"] ci
       else if r < (avgWeights goals).1 + (avgWeights goals).2.1 then
         pickChoice ["mechanism", "proof"] ci
       else pickChoice ["objection", "cta", "retention"] ci) := by
  unfold select_stage_for_day avgWeights
  rw [stage_fold_spec]
  by_cases hrec : goals.filterMap (fun g => goal_weights g.toLower) = []
  · simp [hrec]
  · have hlen : (goals.filterMap (fun g => goal_weights g.toLower)).length ≠ 0 := by
      simpa [List.length_eq_zero] using hrec
    simp [hrec, hlen]

/-- C6: for every goal list, context, draw and choice, the stage selector
lands in the Top band exactly when r is below the blended top weight, in the
Middle band when r is below top+middle, and in the Bottom band otherwise
(blending = average over recognized goals, uniform fallback when none); in
particular the result is always one of the eight funnel stages. -/
theorem stage_selector_spec (goals : List String) (ctx : Ctx) (r : ℚ) (ci : Nat)
    (h0 : 0 ≤ r) (h1 : r < 1) :
    select_stage_for_day goals ctx r ci ∈
      (["hook", "pain", "reframe", "mechanism", "proof",
        "objection", "cta", "retention"] : List String) ∧
    (r < (avgWeights goals).1 →
      select_stage_for_day goals ctx r ci ∈ (["hook", "pain", "reframe"] : List String)) ∧
    ((avgWeights goals).1 ≤ r → r < (avgWeights goals).1 + (avgWeights goals).2.1 →
      select_stage_for_day goals ctx r ci ∈ (["mechanism", "proof"] : List String)) ∧
    ((avgWeights goals).1 + (avgWeights goals).2.1 ≤ r →
      select_stage_for_day goals ctx r ci ∈
        (["objection", "cta", "retention"] : List String)) := by
  rw [stage_avg_eq]
  have htop : ∀ x ∈ (["hook", "pain", "reframe"] : List String),
      x ∈ (["hook", "pain", "reframe", "mechanism", "proof",
            "objection", "cta", "retention"] : List String) := by
    intro x hx
    simp only [List.mem_cons, List.mem_singleton] at hx ⊢
    tauto
  have hmid : ∀ x ∈ (["mechanism", "proof"] : List String),
      x ∈ (["hook", "pain", "reframe", "mechanism", "proof",
            "objection", "cta", "retention"] : List String) := by
    intro x hx
    simp only [List.mem_cons, List.mem_singleton] at hx ⊢
    tauto
  have hbot : ∀ x ∈ (["objection", "cta", "retention"] : List String),
      x ∈ (["hook", "pain", "reframe", "mechanism", "proof",
            "objection", "cta", "retention"] : List String) := by
    intro x hx
    simp only [List.mem_cons, List.mem_singleton] at hx ⊢
    tauto
  split_ifs with hA hB
  · have hm := pickChoice_mem (l := ["hook", "pain", "reframe"]) (by decide) ci
    have hnn := (avgWeights_nonneg goals).2
    exact ⟨htop _ hm, fun _ => hm, fun hc _ => absurd hA (not_lt.mpr hc),
      fun hc => absurd hA (by linarith)⟩
  · have hm := pickChoice_mem (l := ["mechanism", "proof"]) (by decide) ci
    exact ⟨hmid _ hm, fun hc => absurd hc hA, fun _ _ => hm,
      fun hc => absurd hB (not_lt.mpr hc)⟩
  · have hm := pickChoice_mem (l := ["objection", "cta", "retention"]) (by decide) ci
    exact ⟨hbot _ hm, fun hc => absurd hc hA, fun _ hc => absurd hc hB, fun _ => hm⟩

/-- Witness for C6 at goals=["sales"], r=0, choice index 0. -/
theorem stage_selector_spec_case :
    select_stage_for_day ["sales"] [] 0 0 ∈
      (["hook", "pain", "reframe", "mechanism", "proof",
        "objection", "cta", "retention"] : List String) ∧
    ((0 : ℚ) < (avgWeights ["sales"]).1 →
      select_stage_for_day ["sales"] [] 0 0 ∈ (["hook", "pain", "reframe"] : List String)) ∧
    ((avgWeights ["sales"]).1 ≤ (0 : ℚ) →
        (0 : ℚ) < (avgWeights ["sales"]).1 + (avgWeights ["sales"]).2.1 →
      select_stage_for_day ["sales"] [] 0 0 ∈ (["mechanism", "proof"] : List String)) ∧
    ((avgWeights ["sales"]).1 + (avgWeights ["sales"]).2.1 ≤ (0 : ℚ) →
      select_stage_for_day ["sales"] [] 0 0 ∈
        (["objection", "cta", "retention"] : List String)) :=
  stage_selector_spec ["sales"] [] 0 0 (le_refl 0) (by norm_num)

theorem inMonthWindow_char (d m : Date) (hd : d.valid) (hm : m.valid) (hmd : m.day = 1) :
    inMonthWindow d m ↔
      (sameMonth m d ∨ (m = nextMonthFirst d ∧
        daysInMonth d.year d.month +
          daysInMonth (nextMonthFirst d).year (nextMonthFirst d).month < d.day + 32)) := by
  by_cases hc : d.day + 32 ≤ daysInMonth d.year d.month +
      daysInMonth (nextMonthFirst d).year (nextMonthFirst d).month
  · have h32 := Date.addDays32_inNext hd hc
    unfold inMonthWindow monthWindowLo monthWindowHi
    rw [h32]
    obtain ⟨dy, dm, dd⟩ := d
    obtain ⟨my, mm, md⟩ := m
    have hmd1 : md = 1 := hmd
    subst hmd1
    simp only [Date.valid] at hd hm
    dsimp only at hd hm hc ⊢
    have hba := daysInMonth_bounds dy dm
    by_cases hdm : dm < 12
    · have hn1 : nextMonthFirst (⟨dy, dm, dd⟩ : Date) = ⟨dy, dm + 1, 1⟩ := by
        simp [nextMonthFirst, hdm]
      rw [hn1] at hc ⊢
      have hbb := daysInMonth_bounds dy (dm + 1)
      simp only [Date.firstOfMonth, sameMonth, Date.le, Date.lt, Date.mk.injEq,
        le_refl, lt_irrefl, and_true, and_false, or_false, true_and, false_and, false_or]
      dsimp only at *
      omega
    · have hn1 : nextMonthFirst (⟨dy, dm, dd⟩ : Date) = ⟨dy + 1, 1, 1⟩ := by
        simp [nextMonthFirst, hdm]
      rw [hn1] at hc ⊢
      have hbb := daysInMonth_bounds (dy + 1) 1
      simp only [Date.firstOfMonth, sameMonth, Date.le, Date.lt, Date.mk.injEq,
        le_refl, lt_irrefl, and_true, and_false, or_false, true_and, false_and, false_or]
      dsimp only at *
      omega
  · have h32 := Date.addDays32_inSecond hd hc
    unfold inMonthWindow monthWindowLo monthWindowHi
    rw [h32]
    obtain ⟨dy, dm, dd⟩ := d
    obtain ⟨my, mm, md⟩ := m
    have hmd1 : md = 1 := hmd
    subst hmd1
    simp only [Date.valid] at hd hm
    dsimp only at hd hm hc ⊢
    have hba := daysInMonth_bounds dy dm
    by_cases hdm : dm < 12
    · have hn1 : nextMonthFirst (⟨dy, dm, dd⟩ : Date) = ⟨dy, dm + 1, 1⟩ := by
        simp [nextMonthFirst, hdm]
      rw [hn1] at hc ⊢
      have hbb := daysInMonth_bounds dy (dm + 1)
      by_cases hdm2 : dm + 1 < 12
      · have hn2 : nextMonthFirst (⟨dy, dm + 1, 1⟩ : Date) = ⟨dy, dm + 1 + 1, 1⟩ := by
          simp [nextMonthFirst, hdm2]
        rw [hn2]
        have hbd := daysInMonth_bounds dy (dm + 1 + 1)
        simp only [Date.firstOfMonth, sameMonth, Date.le, Date.lt, Date.mk.injEq,
        le_refl, lt_irrefl, and_true, and_false, or_false, true_and, false_and, false_or]
        dsimp only at *
        omega
      · have hn2 : nextMonthFirst (⟨dy, dm + 1, 1⟩ : Date) = ⟨dy + 1, 1, 1⟩ := by
          simp [nextMonthFirst, hdm2]
        rw [hn2]
        have hbd := daysInMonth_bounds (dy + 1) 1
        simp only [Date.firstOfMonth, sameMonth, Date.le, Date.lt, Date.mk.injEq,
        le_refl, lt_irrefl, and_true, and_false, or_false, true_and, false_and, false_or]
        dsimp only at *
        omega
    · have hn1 : nextMonthFirst (⟨dy, dm, dd⟩ : Date) = ⟨dy + 1, 1, 1⟩ := by
        simp [nextMonthFirst, hdm]
      rw [hn1] at hc ⊢
      have hbb := daysInMonth_bounds (dy + 1) 1
      have hn2 : nextMonthFirst (⟨dy + 1, 1, 1⟩ : Date) = ⟨dy + 1, 2, 1⟩ := by
        simp [nextMonthFirst]
      rw [hn2]
      have hbd := daysInMonth_bounds (dy + 1) 2
      simp only [Date.firstOfMonth, sameMonth, Date.le, Date.lt, Date.mk.injEq,
        le_refl, lt_irrefl, and_true, and_false, or_false, true_and, false_and, false_or]
      dsimp only at *
      omega

/-- C8 (amended): for a valid anchor d and a valid stored first-of-month
value m, the resolver's half-open range matches m exactly when m is the
first of d's own month, or m is the first of the following month and fewer
than 32 days remain from d through the end of that following month (the
`+32 days` overshoot). -/
theorem month_window_exact (d m : Date) (hd : d.valid) (hm : m.valid) (hmd : m.day = 1) :
    inMonthWindow d m ↔
      (sameMonth m d ∨ (m = nextMonthFirst d ∧
        daysInMonth d.year d.month +
          daysInMonth (nextMonthFirst d).year (nextMonthFirst d).month < d.day + 32)) :=
  inMonthWindow_char d m hd hm hmd

/-- C8 (counterexample): anchored at 2023-01-31, the half-open range
[2023-01-01, 2023-03-01) also matches the stored February header
2023-02-01, a neighboring month's header. -/
theorem month_window_cex :
    inMonthWindow ⟨2023, 1, 31⟩ ⟨2023, 2, 1⟩ ∧
    ¬ sameMonth (⟨2023, 2, 1⟩ : Date) ⟨2023, 1, 31⟩ := by
  constructor
  · decide
  · decide

/-- Witness for C8's amended theorem at anchor 2023-01-31 and stored month
2023-02-01 (the overshoot disjunct fires). -/
theorem month_window_exact_case :
    inMonthWindow ⟨2023, 1, 31⟩ ⟨2023, 2, 1⟩ ↔
      (sameMonth (⟨2023, 2, 1⟩ : Date) ⟨2023, 1, 31⟩ ∨
        ((⟨2023, 2, 1⟩ : Date) = nextMonthFirst ⟨2023, 1, 31⟩ ∧
          daysInMonth 2023 1 +
            daysInMonth (nextMonthFirst (⟨2023, 1, 31⟩ : Date)).year
              (nextMonthFirst (⟨2023, 1, 31⟩ : Date)).month < 31 + 32)) :=
  month_window_exact ⟨2023, 1, 31⟩ ⟨2023, 2, 1⟩ (by decide) (by decide) rfl

theorem inMonthWindow_of_sameMonth {d c : Date} (hd : d.valid) (hc : c.valid)
    (hs : sameMonth c d) : inMonthWindow d c := by
  by_cases hcc : d.day + 32 ≤ daysInMonth d.year d.month +
      daysInMonth (nextMonthFirst d).year (nextMonthFirst d).month
  · have h32 := Date.addDays32_inNext hd hcc
    unfold inMonthWindow monthWindowLo monthWindowHi
    rw [h32]
    obtain ⟨dy, dm, dd⟩ := d
    obtain ⟨cy, cm, cd⟩ := c
    simp only [Date.valid] at hd hc
    unfold sameMonth at hs
    dsimp only at *
    by_cases hdm : dm < 12
    · have hn1 : nextMonthFirst (⟨dy, dm, dd⟩ : Date) = ⟨dy, dm + 1, 1⟩ := by
        simp [nextMonthFirst, hdm]
      rw [hn1]
      simp only [Date.firstOfMonth, Date.le, Date.lt]
      omega
    · have hn1 : nextMonthFirst (⟨dy, dm, dd⟩ : Date) = ⟨dy + 1, 1, 1⟩ := by
        simp [nextMonthFirst, hdm]
      rw [hn1]
      simp only [Date.firstOfMonth, Date.le, Date.lt]
      omega
  · have h32 := Date.addDays32_inSecond hd hcc
    unfold inMonthWindow monthWindowLo monthWindowHi
    rw [h32]
    obtain ⟨dy, dm, dd⟩ := d
    obtain ⟨cy, cm, cd⟩ := c
    simp only [Date.valid] at hd hc
    unfold sameMonth at hs
    dsimp only at *
    by_cases hdm : dm < 12
    · have hn1 : nextMonthFirst (⟨dy, dm, dd⟩ : Date) = ⟨dy, dm + 1, 1⟩ := by
        simp [nextMonthFirst, hdm]
      rw [hn1]
      by_cases hdm2 : dm + 1 < 12
      · have hn2 : nextMonthFirst (⟨dy, dm + 1, 1⟩ : Date) = ⟨dy, dm + 1 + 1, 1⟩ := by
          simp [nextMonthFirst, hdm2]
        rw [hn2]
        simp only [Date.firstOfMonth, Date.le, Date.lt]
        omega
      · have hn2 : nextMonthFirst (⟨dy, dm + 1, 1⟩ : Date) = ⟨dy + 1, 1, 1⟩ := by
          simp [nextMonthFirst, hdm2]
        rw [hn2]
        simp only [Date.firstOfMonth, Date.le, Date.lt]
        omega
    · have hn1 : nextMonthFirst (⟨dy, dm, dd⟩ : Date) = ⟨dy + 1, 1, 1⟩ := by
        simp [nextMonthFirst, hdm]
      rw [hn1]
      have hn2 : nextMonthFirst (⟨dy + 1, 1, 1⟩ : Date) = ⟨dy + 1, 2, 1⟩ := by
        simp [nextMonthFirst]
      rw [hn2]
      simp only [Date.firstOfMonth, Date.le, Date.lt]
      omega

theorem monthWindowLo_valid {d : Date} (hd : d.valid) : (monthWindowLo d).valid := by
  have hb := daysInMonth_bounds d.year d.month
  obtain ⟨hy, hm1, hm2, _, _⟩ := hd
  simp only [monthWindowLo, Date.firstOfMonth, Date.valid]
  omega

theorem window_lo_self {d : Date} (hd : d.valid) : inMonthWindow d (monthWindowLo d) :=
  inMonthWindow_of_sameMonth hd (monthWindowLo_valid hd) ⟨rfl, rfl⟩

theorem updHeader_hid (pk : HeaderPacket) (cid : Nat) (g : Header) :
    (updHeader pk cid g).hid = g.hid := by
  unfold updHeader; split <;> rfl

theorem updHeader_user (pk : HeaderPacket) (cid : Nat) (g : Header) :
    (updHeader pk cid g).user_id = g.user_id := by
  unfold updHeader; split <;> rfl

theorem updHeader_platform (pk : HeaderPacket) (cid : Nat) (g : Header) :
    (updHeader pk cid g).platform = g.platform := by
  unfold updHeader; split <;> rfl

theorem updHeader_month (pk : HeaderPacket) (cid : Nat) (g : Header) :
    (updHeader pk cid g).calendar_month = g.calendar_month := by
  unfold updHeader; split <;> rfl

theorem headerMatch_upd (u plat : String) (d : Date) (pk : HeaderPacket) (cid : Nat)
    (g : Header) : headerMatch u plat d (updHeader pk cid g) = headerMatch u plat d g := by
  unfold headerMatch
  rw [updHeader_user, updHeader_platform, updHeader_month]

theorem filter_map_upd (pk : HeaderPacket) (cid : Nat) (p : Header → Bool)
    (hp : ∀ g, p (updHeader pk cid g) = p g) (l : List Header) :
    (l.map (updHeader pk cid)).filter p = (l.filter p).map (updHeader pk cid) := by
  rw [List.filter_map]
  congr 1
  apply List.filter_congr
  intro g _
  exact hp g

theorem countPred_upd (u plat : String) (d : Date) (pk : HeaderPacket) (cid : Nat)
    (g : Header) :
    ((updHeader pk cid g).user_id == u && (updHeader pk cid g).platform == plat.toLower &&
      decide (sameMonth (updHeader pk cid g).calendar_month d)) =
    (g.user_id == u && g.platform == plat.toLower &&
      decide (sameMonth g.calendar_month d)) := by
  rw [updHeader_user, updHeader_platform, updHeader_month]

theorem countMonthL_upd (u plat : String) (d : Date) (pk : HeaderPacket) (cid : Nat)
    (l : List Header) :
    ((l.map (updHeader pk cid)).filter (fun h => h.user_id == u &&
      h.platform == plat.toLower && decide (sameMonth h.calendar_month d))).length =
    (l.filter (fun h => h.user_id == u && h.platform == plat.toLower &&
      decide (sameMonth h.calendar_month d))).length := by
  rw [filter_map_upd _ _ _ (countPred_upd u plat d pk cid) l, List.length_map]

theorem headerMatch_of_fields (u plat : String) (d : Date) (hd : d.valid) (nh : Header)
    (hu : nh.user_id = u) (hp : nh.platform = plat.toLower)
    (hs : nh.calendar_month = monthWindowLo d) :
    headerMatch u plat d nh = true := by
  have hw := window_lo_self hd
  unfold headerMatch
  rw [hu, hp, hs]
  simp [hw.1, hw.2]

theorem countPred_of_fields (u plat : String) (d : Date) (nh : Header)
    (hu : nh.user_id = u) (hp : nh.platform = plat.toLower)
    (hs : nh.calendar_month = monthWindowLo d) :
    (nh.user_id == u && nh.platform == plat.toLower &&
      decide (sameMonth nh.calendar_month d)) = true := by
  rw [hu, hp, hs]
  simp [sameMonth, monthWindowLo, Date.firstOfMonth]

/-- C7: resolving the same (user, platform, month) twice against the same
store returns the same header id both times; the second call updates in
place (created flag false, header id list unchanged), and when the store
held at most one header for that month beforehand, it still does
afterwards. -/
theorem resolver_idempotent (s : Store) (u plat : String) (d : Date)
    (nm gl fr : String) (ctx : Ctx) (ed : Option Date) (ds : String)
    (hwf : StoreWF s) (hd : d.valid)
    (id1 : Option Nat) (c1 : Bool) (s1 : Store)
    (h1 : resolve_or_create_calendar s u plat d nm gl fr ctx ed ds = (id1, c1, s1))
    (id2 : Option Nat) (c2 : Bool) (s2 : Store)
    (h2 : resolve_or_create_calendar s1 u plat d nm gl fr ctx ed ds = (id2, c2, s2)) :
    id2 = id1 ∧ id1.isSome ∧ c2 = false ∧
    s2.headers.map (fun h => h.hid) = s1.headers.map (fun h => h.hid) ∧
    (countMonth s u plat d ≤ 1 → countMonth s2 u plat d ≤ 1) := by
  cases hE : s.headers.filter (headerMatch u plat d) with
  | cons h0 tl =>
    simp only [resolve_or_create_calendar, hE, Prod.mk.injEq] at h1
    obtain ⟨hid1, hc1, hs1⟩ := h1
    subst hid1
    subst hc1
    subst hs1
    have hE2 : ∀ pk : HeaderPacket,
        (s.headers.map (updHeader pk h0.hid)).filter (headerMatch u plat d) =
        updHeader pk h0.hid h0 :: tl.map (updHeader pk h0.hid) := by
      intro pk
      rw [filter_map_upd _ _ _ (headerMatch_upd u plat d pk h0.hid), hE, List.map_cons]
    simp only [resolve_or_create_calendar, hE2, Prod.mk.injEq] at h2
    obtain ⟨hid2, hc2, hs2⟩ := h2
    subst hid2
    subst hc2
    subst hs2
    refine ⟨by rw [updHeader_hid], rfl, rfl, ?_, ?_⟩
    · rw [List.map_map]
      apply List.map_congr_left
      intro g _
      simp [Function.comp, updHeader_hid]
    · intro hle
      unfold countMonth at hle ⊢
      rw [countMonthL_upd, countMonthL_upd]
      exact hle
  | nil =>
    simp only [resolve_or_create_calendar, hE, Prod.mk.injEq] at h1
    obtain ⟨hid1, hc1, hs1⟩ := h1
    subst hid1
    subst hc1
    subst hs1
    simp only [resolve_or_create_calendar] at h2
    rw [List.filter_append, hE, List.nil_append, List.filter_cons,
      List.filter_nil] at h2
    rw [headerMatch_of_fields u plat d hd _ rfl rfl rfl] at h2
    simp only [if_true, Prod.mk.injEq] at h2
    obtain ⟨hid2, hc2, hs2⟩ := h2
    subst hid2
    subst hc2
    subst hs2
    refine ⟨rfl, rfl, rfl, ?_, ?_⟩
    · dsimp only
      rw [List.map_map]
      apply List.map_congr_left
      intro g _
      simp [Function.comp, updHeader_hid]
    · intro hle
      have hcm0 : countMonth s u plat d = 0 := by
        unfold countMonth
        rw [List.length_eq_zero, List.filter_eq_nil_iff]
        intro h hh hpred
        simp only [Bool.and_eq_true, beq_iff_eq, decide_eq_true_eq] at hpred
        obtain ⟨⟨hu', hp'⟩, hsm⟩ := hpred
        have hwm := inMonthWindow_of_sameMonth hd (hwf.2 h hh) hsm
        have hmt : headerMatch u plat d h = true := by
          unfold headerMatch
          simp only [Bool.and_eq_true, beq_iff_eq, decide_eq_true_eq]
          exact ⟨⟨⟨hu', hp'⟩, hwm.1⟩, hwm.2⟩
        exact List.filter_eq_nil_iff.mp hE h hh hmt
      unfold countMonth at hcm0 ⊢
      rw [countMonthL_upd]
      rw [List.filter_append, List.length_append, hcm0]
      rw [List.filter_cons]
      rw [countPred_of_fields u plat d _ rfl rfl rfl]
      simp


/-- Witness for C7: two resolver calls on an empty store. -/
theorem resolver_idempotent_case :
    c7r2.1 = c7r1.1 ∧ c7r1.1.isSome ∧ c7r2.2.1 = false ∧
    c7r2.2.2.headers.map (fun h => h.hid) = c7r1.2.2.headers.map (fun h => h.hid) ∧
    (countMonth store0 "u1" "instagram" ⟨2024, 6, 3⟩ ≤ 1 →
      countMonth c7r2.2.2 "u1" "instagram" ⟨2024, 6, 3⟩ ≤ 1) :=
  resolver_idempotent store0 "u1" "instagram" ⟨2024, 6, 3⟩ "n" "sales" "low" [] none ""
    ⟨fun h hh => absurd hh (List.not_mem_nil h), fun h hh => absurd hh (List.not_mem_nil h)⟩
    (by decide) c7r1.1 c7r1.2.1 c7r1.2.2 rfl c7r2.1 c7r2.2.1 c7r2.2.2 rfl

theorem map_hid_map_upd (pk : HeaderPacket) (cid : Nat) (l : List Header) :
    (l.map (updHeader pk cid)).map (fun h => h.hid) = l.map (fun h => h.hid) := by
  rw [List.map_map]
  apply List.map_congr_left
  intro g _
  simp [Function.comp, updHeader_hid]

theorem resolve_cases (s : Store) (u plat : String) (d : Date) (nm gl fr : String)
    (ctx : Ctx) (ed : Option Date) (ds : String) :
    (∃ pk cid, resolve_or_create_calendar s u plat d nm gl fr ctx ed ds =
      (some cid, false, { s with headers := s.headers.map (updHeader pk cid) })) ∨
    (∃ nh : Header, nh.hid = s.nextId ∧
      resolve_or_create_calendar s u plat d nm gl fr ctx ed ds =
        (some s.nextId, true,
          { s with headers := s.headers ++ [nh], nextId := s.nextId + 1 })) := by
  cases hE : s.headers.filter (headerMatch u plat d) with
  | cons h0 tl =>
    left
    refine ⟨⟨nm, gl, ds, fr, ctx, "active", true, ed⟩, h0.hid, ?_⟩
    simp only [resolve_or_create_calendar, hE]
  | nil =>
    right
    refine ⟨⟨s.nextId, u, plat.toLower, monthWindowLo d, d.year, d,
      ⟨nm, gl, ds, fr, ctx, "active", true, ed⟩⟩, rfl, ?_⟩
    simp only [resolve_or_create_calendar, hE]

theorem dictSet_ne_nil (m : List (String × Nat)) (k : String) (v : Nat) :
    dictSet m k v ≠ [] := by
  cases m with
  | nil => simp [dictSet]
  | cons e r =>
    unfold dictSet
    split <;> simp

theorem resolveStep_fold_spec (uid : String) (start : Date) (nm gl fr : String)
    (bctx : Ctx) (ed : Option Date) (ds : String) :
    ∀ (plats : List String) (cm : List (String × Nat)) (nids : List Nat) (s : Store),
    (∀ h ∈ s.headers, h.hid < s.nextId) →
    ∃ newIds olds news,
      (plats.foldl (resolveStep uid start nm gl fr bctx ed ds) (cm, nids, s)).2.1 =
        nids ++ newIds ∧
      (plats.foldl (resolveStep uid start nm gl fr bctx ed ds) (cm, nids, s)).2.2.headers =
        olds ++ news ∧
      olds.map (fun h => h.hid) = s.headers.map (fun h => h.hid) ∧
      news.map (fun h => h.hid) = newIds ∧
      (∀ i ∈ newIds, s.nextId ≤ i) ∧
      (∀ h ∈ (plats.foldl (resolveStep uid start nm gl fr bctx ed ds)
        (cm, nids, s)).2.2.headers,
        h.hid < (plats.foldl (resolveStep uid start nm gl fr bctx ed ds)
          (cm, nids, s)).2.2.nextId) ∧
      (plats.foldl (resolveStep uid start nm gl fr bctx ed ds) (cm, nids, s)).2.2.entries =
        s.entries ∧
      s.nextId ≤ (plats.foldl (resolveStep uid start nm gl fr bctx ed ds)
        (cm, nids, s)).2.2.nextId ∧
      ((cm = [] → plats ≠ []) →
        (plats.foldl (resolveStep uid start nm gl fr bctx ed ds) (cm, nids, s)).1 ≠ []) := by
  intro plats
  induction plats with
  | nil =>
    intro cm nids s hwf
    refine ⟨[], s.headers, [], by simp, by simp, rfl, rfl, by simp, hwf, rfl, le_refl _, ?_⟩
    intro hcm
    by_cases hc : cm = []
    · exact absurd rfl (hcm hc)
    · simpa using hc
  | cons plat rest ih =>
    intro cm nids s hwf
    rw [List.foldl_cons]
    rcases resolve_cases s uid plat start nm gl fr bctx ed ds with
      ⟨pk, cid, hres⟩ | ⟨nh, hnh, hres⟩
    · have hstep : resolveStep uid start nm gl fr bctx ed ds (cm, nids, s) plat =
          (dictSet cm plat cid, nids,
            Store.mk (s.headers.map (updHeader pk cid)) s.entries s.nextId) := by
        unfold resolveStep
        rw [hres]
        rfl
      rw [hstep]
      have hwf2 : ∀ h ∈ (Store.mk (s.headers.map (updHeader pk cid))
          s.entries s.nextId).headers, h.hid <
          (Store.mk (s.headers.map (updHeader pk cid)) s.entries s.nextId).nextId := by
        intro h hh
        simp only [List.mem_map] at hh
        obtain ⟨g, hg, rfl⟩ := hh
        rw [updHeader_hid]
        exact hwf g hg
      obtain ⟨newIds, olds, news, e1, e2, e3, e4, e5, e6, e7, e8, e9⟩ :=
        ih (dictSet cm plat cid) nids
          (Store.mk (s.headers.map (updHeader pk cid)) s.entries s.nextId) hwf2
      refine ⟨newIds, olds, news, e1, e2, ?_, e4, e5, e6, e7, e8, ?_⟩
      · rw [e3]
        exact map_hid_map_upd pk cid s.headers
      · intro _
        exact e9 (fun hc => absurd hc (dictSet_ne_nil cm plat cid))
    · have hstep : resolveStep uid start nm gl fr bctx ed ds (cm, nids, s) plat =
          (dictSet cm plat s.nextId, nids ++ [s.nextId],
            Store.mk (s.headers ++ [nh]) s.entries (s.nextId + 1)) := by
        unfold resolveStep
        rw [hres]
        rfl
      rw [hstep]
      have hwf2 : ∀ h ∈ (Store.mk (s.headers ++ [nh]) s.entries
          (s.nextId + 1)).headers, h.hid <
          (Store.mk (s.headers ++ [nh]) s.entries (s.nextId + 1)).nextId := by
        intro h hh
        simp only [List.mem_append, List.mem_singleton] at hh
        rcases hh with hh | rfl
        · have := hwf h hh
          simp only
          omega
        · simp only
          have := hnh
          omega
      obtain ⟨newIds, olds, news, e1, e2, e3, e4, e5, e6, e7, e8, e9⟩ :=
        ih (dictSet cm plat s.nextId) (nids ++ [s.nextId])
          (Store.mk (s.headers ++ [nh]) s.entries (s.nextId + 1)) hwf2
      simp only [List.map_append, List.map_cons, List.map_nil] at e3
      have hlen : (s.headers.map (fun h => h.hid)).length = s.headers.length :=
        List.length_map _ _
      refine ⟨s.nextId :: newIds,
        olds.take s.headers.length, olds.drop s.headers.length ++ news,
        ?_, ?_, ?_, ?_, ?_, e6, e7, ?_, ?_⟩
      · rw [e1]
        simp
      · rw [e2, ← List.append_assoc, List.take_append_drop]
      · rw [List.map_take, e3, hnh]
        exact List.take_left' hlen
      · rw [List.map_append, List.map_drop, e3, hnh, List.drop_left' hlen, e4]
        rfl
      · intro i hi
        rcases List.mem_cons.mp hi with rfl | hi
        · exact le_refl _
        · have := e5 i hi
          simp only at this
          omega
      · simp only at e8
        omega
      · intro _
        exact e9 (fun hc => absurd hc (dictSet_ne_nil cm plat s.nextId))

theorem resolveFold_entries (uid : String) (start : Date) (nm gl fr : String)
    (bctx : Ctx) (ed : Option Date) (ds : String) :
    ∀ (plats : List String) (cm : List (String × Nat)) (nids : List Nat) (s : Store),
    (plats.foldl (resolveStep uid start nm gl fr bctx ed ds) (cm, nids, s)).2.2.entries =
      s.entries := by
  intro plats
  induction plats with
  | nil => intro cm nids s; rfl
  | cons plat rest ih =>
    intro cm nids s
    rw [List.foldl_cons]
    rcases resolve_cases s uid plat start nm gl fr bctx ed ds with
      ⟨pk, cid, hres⟩ | ⟨nh, hnh, hres⟩
    · have hstep : resolveStep uid start nm gl fr bctx ed ds (cm, nids, s) plat =
          (dictSet cm plat cid, nids,
            Store.mk (s.headers.map (updHeader pk cid)) s.entries s.nextId) := by
        unfold resolveStep
        rw [hres]
        rfl
      rw [hstep, ih]
    · have hstep : resolveStep uid start nm gl fr bctx ed ds (cm, nids, s) plat =
          (dictSet cm plat s.nextId, nids ++ [s.nextId],
            Store.mk (s.headers ++ [nh]) s.entries (s.nextId + 1)) := by
        unfold resolveStep
        rw [hres]
        rfl
      rw [hstep, ih]

theorem resolveFold_cm_ne (uid : String) (start : Date) (nm gl fr : String)
    (bctx : Ctx) (ed : Option Date) (ds : String) :
    ∀ (plats : List String) (cm : List (String × Nat)) (nids : List Nat) (s : Store),
    (cm ≠ [] ∨ plats ≠ []) →
    (plats.foldl (resolveStep uid start nm gl fr bctx ed ds) (cm, nids, s)).1 ≠ [] := by
  intro plats
  induction plats with
  | nil =>
    intro cm nids s h
    rcases h with h | h
    · exact h
    · exact absurd rfl h
  | cons plat rest ih =>
    intro cm nids s _
    rw [List.foldl_cons]
    rcases resolve_cases s uid plat start nm gl fr bctx ed ds with
      ⟨pk, cid, hres⟩ | ⟨nh, hnh, hres⟩
    · have hstep : resolveStep uid start nm gl fr bctx ed ds (cm, nids, s) plat =
          (dictSet cm plat cid, nids,
            Store.mk (s.headers.map (updHeader pk cid)) s.entries s.nextId) := by
        unfold resolveStep
        rw [hres]
        rfl
      rw [hstep]
      exact ih _ _ _ (Or.inl (dictSet_ne_nil cm plat cid))
    · have hstep : resolveStep uid start nm gl fr bctx ed ds (cm, nids, s) plat =
          (dictSet cm plat s.nextId, nids ++ [s.nextId],
            Store.mk (s.headers ++ [nh]) s.entries (s.nextId + 1)) := by
        unfold resolveStep
        rw [hres]
        rfl
      rw [hstep]
      exact ih _ _ _ (Or.inl (dictSet_ne_nil cm plat s.nextId))

theorem chunksOf_foldl_append (n : Nat) (hn : 1 ≤ n) :
    ∀ (len : Nat) (l : List Entry), l.length ≤ len →
    ∀ acc, (chunksOf n l).foldl (fun a c => a ++ c) acc = acc ++ l := by
  intro len
  induction len with
  | zero =>
    intro l hl acc
    have hnil : l = [] := List.length_eq_zero.mp (Nat.le_zero.mp hl)
    subst hnil
    simp [chunksOf]
  | succ k ih =>
    intro l hl acc
    cases l with
    | nil => simp [chunksOf]
    | cons x xs =>
      rw [chunksOf, List.foldl_cons]
      have hdl : (xs.drop (n - 1)).length ≤ k := by
        rw [List.length_drop]
        simp only [List.length_cons] at hl
        omega
      rw [ih (xs.drop (n - 1)) hdl]
      rw [List.append_assoc]
      congr 1
      have hds : xs.drop (n - 1) = (x :: xs).drop n := by
        cases n with
        | zero => omega
        | succ m => rfl
      rw [hds, List.take_append_drop]

theorem insertChunks_eq (tbl es : List Entry) : insertChunks 50 tbl es = tbl ++ es :=
  chunksOf_foldl_append 50 (by omega) es.length es (le_refl _) tbl

theorem pyIdx_clamp_isSome {themes : List String} (hth : themes ≠ []) (wk : Nat) :
    (pyIdx themes (min (wk : Int) ((themes.length : Int) - 1))).isSome = true := by
  have hlen : 1 ≤ themes.length := List.length_pos.mpr hth
  have h0 : 0 ≤ min (wk : Int) ((themes.length : Int) - 1) := by
    apply le_min
    · exact Int.natCast_nonneg wk
    · omega
  have h1 : min (wk : Int) ((themes.length : Int) - 1) < (themes.length : Int) := by
    have := min_le_right (wk : Int) ((themes.length : Int) - 1)
    omega
  have hnn : ¬ (min (wk : Int) ((themes.length : Int) - 1)) < 0 := not_lt.mpr h0
  unfold pyIdx
  simp only [hnn, if_false]
  rw [if_pos ⟨h0, h1⟩]
  have hlt : (min (wk : Int) ((themes.length : Int) - 1)).toNat < themes.length := by
    omega
  rw [List.get?_eq_get hlt]
  rfl

theorem slotStep_skip (goals : List String) (bctx : Ctx) (platforms : List String)
    (calendar_map : List (String × Nat)) (schedule_days : List Int)
    (themes : List String) (start : Date) (rand : Nat → ℚ) (ci : Nat → Nat)
    (k : Nat) (batches : List (Nat × List PlannedTask)) (i : Nat)
    (h : ¬ (((start.addDays i).weekday : Int) ∈ schedule_days)) :
    slotStep goals bctx platforms calendar_map schedule_days themes start rand ci
      (some (k, batches)) i = some (k, batches) := by
  simp only [slotStep]
  rw [if_neg h]

theorem slotStep_take (goals : List String) (bctx : Ctx) (platforms : List String)
    (calendar_map : List (String × Nat)) (schedule_days : List Int)
    (themes : List String) (start : Date) (rand : Nat → ℚ) (ci : Nat → Nat)
    (k : Nat) (batches : List (Nat × List PlannedTask)) (i : Nat) (theme : String)
    (h : (((start.addDays i).weekday : Int) ∈ schedule_days))
    (hidx : pyIdx themes (min ((i / 7 : Nat) : Int) ((themes.length : Int) - 1)) =
      some theme) :
    slotStep goals bctx platforms calendar_map schedule_days themes start rand ci
      (some (k, batches)) i =
    some (k + 1, platforms.foldl (fun b plat =>
      match dictFind calendar_map plat with
      | some cid => setdefaultAppend b (i / 7)
          { date := start.addDays i,
            stage := select_stage_for_day goals bctx (rand k) (ci k),
            theme := theme, platform := plat, calendar_id := cid }
      | none => b) batches) := by
  simp only [slotStep]
  rw [if_pos h, hidx]

theorem slotFold_isSome (goals : List String) (bctx : Ctx) (platforms : List String)
    (calendar_map : List (String × Nat)) (schedule_days : List Int)
    (themes : List String) (start : Date) (rand : Nat → ℚ) (ci : Nat → Nat)
    (hth : themes ≠ []) :
    ∀ (l : List Nat) (k : Nat) (batches : List (Nat × List PlannedTask)),
    (l.foldl (slotStep goals bctx platforms calendar_map schedule_days themes start rand ci)
      (some (k, batches))).isSome = true := by
  intro l
  induction l with
  | nil => intro k batches; rfl
  | cons i rest ih =>
    intro k batches
    rw [List.foldl_cons]
    by_cases helig : (((start.addDays i).weekday : Int) ∈ schedule_days)
    · cases hidx : pyIdx themes (min ((i / 7 : Nat) : Int) ((themes.length : Int) - 1)) with
      | none =>
        have hs := pyIdx_clamp_isSome hth (i / 7)
        rw [hidx] at hs
        cases hs
      | some theme =>
        rw [slotStep_take goals bctx platforms calendar_map schedule_days themes
          start rand ci k batches i theme helig hidx]
        exact ih _ _
    · rw [slotStep_skip goals bctx platforms calendar_map schedule_days themes
        start rand ci k batches i helig]
      exact ih _ _

theorem buildBatches_isSome (goals : List String) (bctx : Ctx) (platforms : List String)
    (calendar_map : List (String × Nat)) (schedule_days : List Int)
    (themes : List String) (start : Date) (count : Nat) (rand : Nat → ℚ)
    (ci : Nat → Nat) (h : themes ≠ [] ∨ count = 0) :
    ∃ batches, buildBatches goals bctx platforms calendar_map schedule_days themes
      start count rand ci = some batches := by
  rcases h with hth | hc
  · unfold buildBatches
    have hs := slotFold_isSome goals bctx platforms calendar_map schedule_days themes
      start rand ci hth (List.range count) 0 []
    cases hf : (List.range count).foldl (slotStep goals bctx platforms calendar_map
        schedule_days themes start rand ci) (some (0, [])) with
    | none => rw [hf] at hs; cases hs
    | some kb => exact ⟨kb.2, rfl⟩
  · subst hc
    exact ⟨[], rfl⟩

theorem generate_eq_wkContent (env : Env) (w : Nat) (ts : List PlannedTask)
    (th : String) (c : Ctx) (d : String) :
    generate_weekly_content_batch env w ts th c d = wkContent env w := rfl

theorem buildEntries_of_empty (env : Env) (uid descr : String) (bctx : Ctx)
    (hempty : ∀ w, wkContent env w = [])
    (batches : List (Nat × List PlannedTask)) :
    buildEntries env uid descr bctx batches = [] := by
  unfold buildEntries
  rw [List.flatMap_eq_nil_iff]
  intro wts _
  cases hts : wts.2 with
  | nil => simp only [hts]
  | cons t0 ts' =>
    simp only [hts, generate_eq_wkContent, hempty wts.1, List.filterMap_eq_nil_iff]
    intro t _
    rfl

theorem filterMap_of_good (env : Env) (w : Nat) (uid : String) :
    ∀ (ts : List PlannedTask), goodWeekB env w ts = true →
    ts.filterMap (fun t =>
      match dictGet (wkContent env w) (taskKey t) with
      | some (.pyDict fields) =>
        if fields.isEmpty then none else some (mkEntry uid t fields)
      | _ => none) = ts.map (entryFor env w uid) := by
  intro ts
  induction ts with
  | nil => intro _; rfl
  | cons t ts' ih =>
    intro hg
    unfold goodWeekB at hg
    rw [List.all_cons, Bool.and_eq_true] at hg
    obtain ⟨ht, hts⟩ := hg
    cases hdg : dictGet (wkContent env w) (taskKey t) with
    | none => rw [hdg] at ht; cases ht
    | some v =>
      cases v with
      | pyDict fields =>
        rw [hdg] at ht
        simp only at ht
        have htf : fields.isEmpty = false := by
          rw [Bool.not_eq_true'] at ht
          exact ht
        rw [List.filterMap_cons, List.map_cons]
        simp only [hdg, htf, Bool.false_eq_true, if_false]
        rw [ih hts]
        congr 1
        unfold entryFor
        rw [hdg]
      | pyInt n => rw [hdg] at ht; cases ht
      | pyStr s => rw [hdg] at ht; cases ht
      | pyList l => rw [hdg] at ht; cases ht
      | pyNull => rw [hdg] at ht; cases ht

theorem goodWeekB_of_empty_content {env : Env} {w : Nat}
    (hc : wkContent env w = []) (t : PlannedTask) (ts : List PlannedTask) :
    goodWeekB env w (t :: ts) = false := by
  unfold goodWeekB
  rw [List.all_cons, hc]
  rfl

theorem buildEntries_covered (env : Env) (uid descr : String) (bctx : Ctx) :
    ∀ (batches : List (Nat × List PlannedTask)),
    (∀ wts ∈ batches, (wkContent env wts.1).isEmpty = true ∨
      goodWeekB env wts.1 wts.2 = true) →
    buildEntries env uid descr bctx batches = coveredEntries env uid batches := by
  intro batches
  induction batches with
  | nil => intro _; rfl
  | cons wts rest ih =>
    intro hsplit
    unfold buildEntries coveredEntries
    rw [List.flatMap_cons, List.flatMap_cons]
    have hrest : buildEntries env uid descr bctx rest = coveredEntries env uid rest := by
      apply ih
      intro x hx
      exact hsplit x (List.mem_cons_of_mem wts hx)
    unfold buildEntries coveredEntries at hrest
    rw [hrest]
    congr 1
    rcases hsplit wts (List.mem_cons_self wts rest) with hemp | hgood
    · rw [List.isEmpty_iff] at hemp
      cases hts : wts.2 with
      | nil =>
        simp only [hts, goodWeekB]
        rfl
      | cons t0 ts' =>
        have hne : ¬ goodWeekB env wts.1 (t0 :: ts') = true := by
          rw [goodWeekB_of_empty_content hemp t0 ts']
          exact Bool.false_ne_true
        rw [if_neg hne]
        simp only [generate_eq_wkContent, hemp, List.filterMap_eq_nil_iff]
        intro t _
        rfl
    · rw [if_pos hgood]
      cases hts : wts.2 with
      | nil => simp only [hts]; rfl
      | cons t0 ts' =>
        simp only [hts, generate_eq_wkContent]
        rw [← hts]
        exact filterMap_of_good env wts.1 uid wts.2 hgood

theorem coveredEntries_pos (env : Env) (uid : String)
    (batches : List (Nat × List PlannedTask))
    (hgood : ∃ wts ∈ batches, wts.2 ≠ [] ∧ goodWeekB env wts.1 wts.2 = true) :
    0 < (coveredEntries env uid batches).length := by
  obtain ⟨wts, hmem, hne, hgw⟩ := hgood
  cases hts : wts.2 with
  | nil => exact absurd hts hne
  | cons t0 ts' =>
    have hm : entryFor env wts.1 uid t0 ∈ coveredEntries env uid batches := by
      unfold coveredEntries
      apply List.mem_flatMap.mpr
      refine ⟨wts, hmem, ?_⟩
      rw [if_pos hgw, hts]
      exact List.mem_map_of_mem _ (List.mem_cons_self t0 ts')
    exact List.length_pos_of_mem hm

theorem run_success_spec (env : Env) (today : Date) (s : Store) (p : Payload)
    (uid : String) (batches : List (Nat × List PlannedTask))
    (hu : p.user_id = some uid)
    (hp : platformsOf p ≠ [])
    (hbat : buildBatches (goalsOf p) (env.profile uid) (platformsOf p)
      (resolveAll s uid (platformsOf p) (p.start_date.getD today)
        (p.name.getD "Smart Campaign") ((goalsOf p).headD "")
        (p.frequency.getD "medium") (env.profile uid)
        (some (endDurationOf p (p.start_date.getD today)).1) (descOf p)).1
      (generate_smart_rhythm env (p.frequency.getD "medium")
        ((platformsOf p).headD "") (env.profile uid))
      (generate_weekly_themes env
        ((endDurationOf p (p.start_date.getD today)).2.fdiv 7 + 2)
        (String.intercalate ", " (goalsOf p)) (env.profile uid))
      (p.start_date.getD today)
      (loopCount (p.start_date.getD today)
        (endDurationOf p (p.start_date.getD today)).1)
      env.rand env.choiceIdx = some batches)
    (hsplit : ∀ wts ∈ batches, (wkContent env wts.1).isEmpty = true ∨
      goodWeekB env wts.1 wts.2 = true)
    (hgood : ∃ wts ∈ batches, wts.2 ≠ [] ∧ goodWeekB env wts.1 wts.2 = true) :
    (create_organic_campaign_manual env today s p).1.entries =
      s.entries ++ coveredEntries env uid batches ∧
    (create_organic_campaign_manual env today s p).2.errorOf = none ∧
    (create_organic_campaign_manual env today s p).2.postCountOf =
      (coveredEntries env uid batches).length ∧
    0 < (coveredEntries env uid batches).length := by
  have hpe : (platformsOf p).isEmpty = false := by
    rw [← Bool.not_eq_true, List.isEmpty_iff]
    exact hp
  have hcm : (resolveAll s uid (platformsOf p) (p.start_date.getD today)
      (p.name.getD "Smart Campaign") ((goalsOf p).headD "")
      (p.frequency.getD "medium") (env.profile uid)
      (some (endDurationOf p (p.start_date.getD today)).1) (descOf p)).1 ≠ [] := by
    unfold resolveAll
    exact resolveFold_cm_ne uid (p.start_date.getD today)
      (p.name.getD "Smart Campaign") ((goalsOf p).headD "")
      (p.frequency.getD "medium") (env.profile uid)
      (some (endDurationOf p (p.start_date.getD today)).1) (descOf p)
      (platformsOf p) [] [] s (Or.inr hp)
  have hcme : (resolveAll s uid (platformsOf p) (p.start_date.getD today)
      (p.name.getD "Smart Campaign") ((goalsOf p).headD "")
      (p.frequency.getD "medium") (env.profile uid)
      (some (endDurationOf p (p.start_date.getD today)).1) (descOf p)).1.isEmpty =
      false := by
    rw [← Bool.not_eq_true, List.isEmpty_iff]
    exact hcm
  have hcov := buildEntries_covered env uid (descOf p) (env.profile uid) batches hsplit
  have hpos := coveredEntries_pos env uid batches hgood
  have hcove : (coveredEntries env uid batches).isEmpty = false := by
    rw [← Bool.not_eq_true, List.isEmpty_iff]
    intro hnil
    rw [hnil] at hpos
    simp at hpos
  have hent := resolveFold_entries uid (p.start_date.getD today)
    (p.name.getD "Smart Campaign") ((goalsOf p).headD "")
    (p.frequency.getD "medium") (env.profile uid)
    (some (endDurationOf p (p.start_date.getD today)).1) (descOf p)
    (platformsOf p) [] [] s
  simp only [create_organic_campaign_manual, hu, hpe, Bool.false_eq_true, if_false,
    hcme, hbat, hcov, hcove]
  refine ⟨?_, rfl, rfl, hpos⟩
  rw [insertChunks_eq]
  unfold resolveAll
  rw [hent]

theorem weekLabels_ne_nil {n : Nat} (h : 1 ≤ n) : weekLabels n ≠ [] := by
  apply List.length_pos_iff_ne_nil.mp
  unfold weekLabels
  rw [List.length_map, List.length_range]
  exact h

theorem themes_or_count (env : Env) (p : Payload) (today : Date)
    (gs : String) (bctx : Ctx)
    (hth : ∀ v, env.themes = Except.ok v → asStrList v ≠ some []) :
    generate_weekly_themes env
      ((endDurationOf p (p.start_date.getD today)).2.fdiv 7 + 2) gs bctx ≠ [] ∨
    loopCount (p.start_date.getD today)
      (endDurationOf p (p.start_date.getD today)).1 = 0 := by
  by_cases hcnt : loopCount (p.start_date.getD today)
      (endDurationOf p (p.start_date.getD today)).1 = 0
  · exact Or.inr hcnt
  · left
    have hdur : 0 ≤ (endDurationOf p (p.start_date.getD today)).2 := by
      unfold endDurationOf at hcnt ⊢
      cases he : p.end_date with
      | some e =>
        simp only [he] at hcnt ⊢
        unfold loopCount at hcnt
        omega
      | none =>
        simp only [he]
        exact Int.natCast_nonneg _
    have hnum : 1 ≤ ((endDurationOf p (p.start_date.getD today)).2.fdiv 7 + 2).toNat := by
      have := Int.fdiv_nonneg hdur (by omega : (0 : Int) ≤ 7)
      omega
    unfold generate_weekly_themes
    cases hc : env.hasClient with
    | false =>
      simp only [Bool.not_false, if_true]
      intro hnil
      have := congrArg List.length hnil
      rw [List.length_replicate] at this
      simp at this
      omega
    | true =>
      simp only [Bool.not_true, Bool.false_eq_true, if_false]
      cases he : env.themes with
      | error u =>
        dsimp only
        exact weekLabels_ne_nil hnum
      | ok v =>
        dsimp only
        cases hsv : asStrList v with
        | none =>
          dsimp only
          exact weekLabels_ne_nil hnum
        | some l =>
          dsimp only
          intro hnil
          subst hnil
          exact hth v he hsv

/-- C1: when every weekly batch call yields an empty mapping (so zero
entries are produced), the run deletes exactly the headers it freshly
created, leaves pre-existing header ids and the entry table untouched, and
returns the generation-failure result.  The theme-response hypothesis rules
out the separate crash documented for C10 (an accepted empty theme list);
the run is assumed to carry a user id and at least one platform. -/
theorem total_failure_rollback (env : Env) (today : Date) (s : Store) (p : Payload)
    (uid : String)
    (hu : p.user_id = some uid)
    (hp : platformsOf p ≠ [])
    (hwf : ∀ h ∈ s.headers, h.hid < s.nextId)
    (hempty : ∀ w ts th c dsc, generate_weekly_content_batch env w ts th c dsc = [])
    (hth : ∀ v, env.themes = Except.ok v → asStrList v ≠ some []) :
    (create_organic_campaign_manual env today s p).2 =
      RunRes.res { error := some "AI generation failed.", post_count := 0 } ∧
    (create_organic_campaign_manual env today s p).1.entries = s.entries ∧
    (create_organic_campaign_manual env today s p).1.headers.map (fun h => h.hid) =
      s.headers.map (fun h => h.hid) := by
  have hwk : ∀ w, wkContent env w = [] := fun w => hempty w [] "" [] ""
  have hpe : (platformsOf p).isEmpty = false := by
    rw [← Bool.not_eq_true, List.isEmpty_iff]
    exact hp
  obtain ⟨batches, hbat⟩ := buildBatches_isSome (goalsOf p) (env.profile uid)
    (platformsOf p)
    (resolveAll s uid (platformsOf p) (p.start_date.getD today)
      (p.name.getD "Smart Campaign") ((goalsOf p).headD "")
      (p.frequency.getD "medium") (env.profile uid)
      (some (endDurationOf p (p.start_date.getD today)).1) (descOf p)).1
    (generate_smart_rhythm env (p.frequency.getD "medium")
      ((platformsOf p).headD "") (env.profile uid))
    (generate_weekly_themes env
      ((endDurationOf p (p.start_date.getD today)).2.fdiv 7 + 2)
      (String.intercalate ", " (goalsOf p)) (env.profile uid))
    (p.start_date.getD today)
    (loopCount (p.start_date.getD today)
      (endDurationOf p (p.start_date.getD today)).1)
    env.rand env.choiceIdx
    (themes_or_count env p today (String.intercalate ", " (goalsOf p))
      (env.profile uid) hth)
  have hcm : (resolveAll s uid (platformsOf p) (p.start_date.getD today)
      (p.name.getD "Smart Campaign") ((goalsOf p).headD "")
      (p.frequency.getD "medium") (env.profile uid)
      (some (endDurationOf p (p.start_date.getD today)).1) (descOf p)).1 ≠ [] := by
    unfold resolveAll
    exact resolveFold_cm_ne uid (p.start_date.getD today)
      (p.name.getD "Smart Campaign") ((goalsOf p).headD "")
      (p.frequency.getD "medium") (env.profile uid)
      (some (endDurationOf p (p.start_date.getD today)).1) (descOf p)
      (platformsOf p) [] [] s (Or.inr hp)
  have hcme : (resolveAll s uid (platformsOf p) (p.start_date.getD today)
      (p.name.getD "Smart Campaign") ((goalsOf p).headD "")
      (p.frequency.getD "medium") (env.profile uid)
      (some (endDurationOf p (p.start_date.getD today)).1) (descOf p)).1.isEmpty =
      false := by
    rw [← Bool.not_eq_true, List.isEmpty_iff]
    exact hcm
  have hbe := buildEntries_of_empty env uid (descOf p) (env.profile uid) hwk batches
  have hent := resolveFold_entries uid (p.start_date.getD today)
    (p.name.getD "Smart Campaign") ((goalsOf p).headD "")
    (p.frequency.getD "medium") (env.profile uid)
    (some (endDurationOf p (p.start_date.getD today)).1) (descOf p)
    (platformsOf p) [] [] s
  obtain ⟨newIds, olds, news, e1, e2, e3, e4, e5, e6, e7, e8, e9⟩ :=
    resolveStep_fold_spec uid (p.start_date.getD today)
      (p.name.getD "Smart Campaign") ((goalsOf p).headD "")
      (p.frequency.getD "medium") (env.profile uid)
      (some (endDurationOf p (p.start_date.getD today)).1) (descOf p)
      (platformsOf p) [] [] s hwf
  rw [List.nil_append] at e1
  have holds : olds.filter (fun h => !(newIds.contains h.hid)) = olds := by
    rw [List.filter_eq_self]
    intro h hh
    have hmem : h.hid ∈ s.headers.map (fun g => g.hid) := by
      rw [← e3]
      exact List.mem_map_of_mem _ hh
    obtain ⟨g, hg, hge⟩ := List.mem_map.mp hmem
    have hcf : newIds.contains h.hid = false := by
      rw [← Bool.not_eq_true]
      intro hcon
      have hin : h.hid ∈ newIds := List.mem_of_elem_eq_true hcon
      have := e5 h.hid hin
      have := hwf g hg
      omega
    rw [hcf]
    rfl
  have hnews : news.filter (fun h => !(newIds.contains h.hid)) = [] := by
    rw [List.filter_eq_nil_iff]
    intro h hh
    have hmem : h.hid ∈ newIds := by
      rw [← e4]
      exact List.mem_map_of_mem _ hh
    have hct : newIds.contains h.hid = true := List.elem_iff.mpr hmem
    rw [hct]
    simp
  simp only [create_organic_campaign_manual, hu, hpe, Bool.false_eq_true, if_false,
    hcme, hbat, hbe, List.isEmpty_nil, if_true]
  refine ⟨?_, ?_, ?_⟩
  · trivial
  · unfold resolveAll
    exact hent
  · unfold resolveAll
    rw [e1, e2, List.filter_append, holds, hnews, List.append_nil, e3]

/-- C1 witness: the rollback theorem instantiated at the downed oracle, the
empty store and the concrete request fixture. -/
theorem total_failure_rollback_witness :
    (create_organic_campaign_manual envDown ⟨2024, 6, 1⟩ store0 p1).2 =
      RunRes.res { error := some "AI generation failed.", post_count := 0 } ∧
    (create_organic_campaign_manual envDown ⟨2024, 6, 1⟩ store0 p1).1.entries =
      store0.entries ∧
    (create_organic_campaign_manual envDown ⟨2024, 6, 1⟩ store0 p1).1.headers.map
      (fun h => h.hid) = store0.headers.map (fun h => h.hid) :=
  total_failure_rollback envDown ⟨2024, 6, 1⟩ store0 p1 "u1" rfl
    (by decide)
    (by intro h hh; exact absurd hh (List.not_mem_nil _))
    (fun w ts th c dsc => rfl)
    (fun v h => nomatch h)

/-- C3: if the slot planner yields `batches` and every week's batch response
is either empty or fully covers its tasks, with at least one non-trivially
covered week, then the run persists exactly the covered weeks' entries and
reports success with their (non-zero) count. -/
theorem partial_failure_tolerance (env : Env) (today : Date) (s : Store) (p : Payload)
    (uid : String) (batches : List (Nat × List PlannedTask))
    (hu : p.user_id = some uid)
    (hp : platformsOf p ≠ [])
    (hbat : buildBatches (goalsOf p) (env.profile uid) (platformsOf p)
      (resolveAll s uid (platformsOf p) (p.start_date.getD today)
        (p.name.getD "Smart Campaign") ((goalsOf p).headD "")
        (p.frequency.getD "medium") (env.profile uid)
        (some (endDurationOf p (p.start_date.getD today)).1) (descOf p)).1
      (generate_smart_rhythm env (p.frequency.getD "medium")
        ((platformsOf p).headD "") (env.profile uid))
      (generate_weekly_themes env
        ((endDurationOf p (p.start_date.getD today)).2.fdiv 7 + 2)
        (String.intercalate ", " (goalsOf p)) (env.profile uid))
      (p.start_date.getD today)
      (loopCount (p.start_date.getD today)
        (endDurationOf p (p.start_date.getD today)).1)
      env.rand env.choiceIdx = some batches)
    (hsplit : ∀ wts ∈ batches, (wkContent env wts.1).isEmpty = true ∨
      goodWeekB env wts.1 wts.2 = true)
    (hgood : ∃ wts ∈ batches, wts.2 ≠ [] ∧ goodWeekB env wts.1 wts.2 = true) :
    (create_organic_campaign_manual env today s p).1.entries =
      s.entries ++ coveredEntries env uid batches ∧
    (create_organic_campaign_manual env today s p).2.errorOf = none ∧
    (create_organic_campaign_manual env today s p).2.postCountOf =
      (coveredEntries env uid batches).length ∧
    0 < (coveredEntries env uid batches).length :=
  run_success_spec env today s p uid batches hu hp hbat hsplit hgood

/-- C3 witness: with one fully covered week and one empty week, the concrete
run persists exactly the covered entries and reports a positive count. -/
theorem partial_failure_tolerance_witness :
    (create_organic_campaign_manual envC3 ⟨2024, 6, 1⟩ store0 p1).1.entries =
      store0.entries ++ coveredEntries envC3 "u1" c3batches ∧
    (create_organic_campaign_manual envC3 ⟨2024, 6, 1⟩ store0 p1).2.errorOf = none ∧
    (create_organic_campaign_manual envC3 ⟨2024, 6, 1⟩ store0 p1).2.postCountOf =
      (coveredEntries envC3 "u1" c3batches).length ∧
    0 < (coveredEntries envC3 "u1" c3batches).length :=
  partial_failure_tolerance envC3 ⟨2024, 6, 1⟩ store0 p1 "u1" c3batches rfl
    (by decide) (by with_unfolding_all decide) (by decide) (by decide)




/-- C2 counterexample: the spec's example request (duration 7, rhythm
fallback [0, 3]) yields THREE planned dates, not two — the `<=` day loop
also reaches offset 7 (Monday 2024-06-10) — and, with all content calls
succeeding, post_count is 3. -/
theorem planned_dates_cex :
    (create_organic_campaign_manual envC2 ⟨2024, 6, 1⟩ store0 p2).2.postCountOf = 3 ∧
    (create_organic_campaign_manual envC2 ⟨2024, 6, 1⟩ store0 p2).1.entries.map
      (fun e => e.entry_date) =
      [⟨2024, 6, 3⟩, ⟨2024, 6, 6⟩, ⟨2024, 6, 10⟩] := by
  with_unfolding_all decide

/-- C2 amended: for the spec's example request the slot planner produces
exactly the three dates 2024-06-03, 2024-06-06 and 2024-06-10 — the
inclusive end-date loop also schedules offset 7 — and when content
generation covers all three tasks the run succeeds with post_count 3. -/
theorem planned_dates_amended (env : Env)
    (hcl : env.hasClient = true)
    (hrh : env.rhythm = Except.error ())
    (hth : env.themes = Except.error ())
    (hr : env.rand = fun _ => 0)
    (hci : env.choiceIdx = fun _ => 0)
    (hpr : env.profile = fun _ => [])
    (hgood0 : goodWeekB env 0 [⟨⟨2024, 6, 3⟩, "hook", "Week 1", "instagram", 0⟩,
      ⟨⟨2024, 6, 6⟩, "hook", "Week 1", "instagram", 0⟩] = true)
    (hgood1 : goodWeekB env 1
      [⟨⟨2024, 6, 10⟩, "hook", "Week 2", "instagram", 0⟩] = true) :
    (create_organic_campaign_manual env ⟨2024, 6, 1⟩ store0 p2).1.entries.map
      (fun e => e.entry_date) = [⟨2024, 6, 3⟩, ⟨2024, 6, 6⟩, ⟨2024, 6, 10⟩] ∧
    (create_organic_campaign_manual env ⟨2024, 6, 1⟩ store0 p2).2.errorOf = none ∧
    (create_organic_campaign_manual env ⟨2024, 6, 1⟩ store0 p2).2.postCountOf = 3 := by
  have hrhy : generate_smart_rhythm env (p2.frequency.getD "medium")
      ((platformsOf p2).headD "") (env.profile "u1") = [0, 3] := by
    simp only [generate_smart_rhythm, hcl, hrh]
    rfl
  have hthm : generate_weekly_themes env
      ((endDurationOf p2 (p2.start_date.getD ⟨2024, 6, 1⟩)).2.fdiv 7 + 2)
      (String.intercalate ", " (goalsOf p2)) (env.profile "u1") =
      ["Week 1", "Week 2", "Week 3"] := by
    simp only [generate_weekly_themes, hcl, hth]
    rfl
  have hbat : buildBatches (goalsOf p2) (env.profile "u1") (platformsOf p2)
      (resolveAll store0 "u1" (platformsOf p2) (p2.start_date.getD ⟨2024, 6, 1⟩)
        (p2.name.getD "Smart Campaign") ((goalsOf p2).headD "")
        (p2.frequency.getD "medium") (env.profile "u1")
        (some (endDurationOf p2 (p2.start_date.getD ⟨2024, 6, 1⟩)).1) (descOf p2)).1
      (generate_smart_rhythm env (p2.frequency.getD "medium")
        ((platformsOf p2).headD "") (env.profile "u1"))
      (generate_weekly_themes env
        ((endDurationOf p2 (p2.start_date.getD ⟨2024, 6, 1⟩)).2.fdiv 7 + 2)
        (String.intercalate ", " (goalsOf p2)) (env.profile "u1"))
      (p2.start_date.getD ⟨2024, 6, 1⟩)
      (loopCount (p2.start_date.getD ⟨2024, 6, 1⟩)
        (endDurationOf p2 (p2.start_date.getD ⟨2024, 6, 1⟩)).1)
      env.rand env.choiceIdx = some c2batches := by
    rw [hrhy, hthm, hr, hci, hpr]
    with_unfolding_all decide
  have hsplit : ∀ wts ∈ c2batches, (wkContent env wts.1).isEmpty = true ∨
      goodWeekB env wts.1 wts.2 = true := by
    intro wts hw
    simp only [c2batches, List.mem_cons, List.not_mem_nil, or_false] at hw
    rcases hw with h | h
    · subst h; exact Or.inr hgood0
    · subst h; exact Or.inr hgood1
  have hgood : ∃ wts ∈ c2batches, wts.2 ≠ [] ∧ goodWeekB env wts.1 wts.2 = true := by
    refine ⟨(0, [⟨⟨2024, 6, 3⟩, "hook", "Week 1", "instagram", 0⟩,
      ⟨⟨2024, 6, 6⟩, "hook", "Week 1", "instagram", 0⟩]), ?_, ?_, hgood0⟩
    · exact List.mem_cons_self _ _
    · simp
  obtain ⟨he, herr, hpc, hpos⟩ := run_success_spec env ⟨2024, 6, 1⟩ store0 p2 "u1"
    c2batches rfl (by decide) hbat hsplit hgood
  have hcov : coveredEntries env "u1" c2batches =
      [entryFor env 0 "u1" ⟨⟨2024, 6, 3⟩, "hook", "Week 1", "instagram", 0⟩,
       entryFor env 0 "u1" ⟨⟨2024, 6, 6⟩, "hook", "Week 1", "instagram", 0⟩,
       entryFor env 1 "u1" ⟨⟨2024, 6, 10⟩, "hook", "Week 2", "instagram", 0⟩] := by
    simp only [coveredEntries, c2batches, List.flatMap_cons, List.flatMap_nil,
      List.append_nil, hgood0, hgood1, eq_self_iff_true, if_true, List.map_cons,
      List.map_nil]
    rfl
  refine ⟨?_, herr, ?_⟩
  · rw [he, hcov]
    rfl
  · rw [hpc, hcov]
    rfl

/-- C2 amended witness: the concrete oracle covering all three tasks. -/
theorem planned_dates_amended_witness :
    (create_organic_campaign_manual envC2 ⟨2024, 6, 1⟩ store0 p2).1.entries.map
      (fun e => e.entry_date) = [⟨2024, 6, 3⟩, ⟨2024, 6, 6⟩, ⟨2024, 6, 10⟩] ∧
    (create_organic_campaign_manual envC2 ⟨2024, 6, 1⟩ store0 p2).2.errorOf = none ∧
    (create_organic_campaign_manual envC2 ⟨2024, 6, 1⟩ store0 p2).2.postCountOf = 3 :=
  planned_dates_amended envC2 rfl rfl rfl rfl rfl rfl (by decide) (by decide)


/-- C10 counterexample: the acceptance check admits the EMPTY list of
strings, and then the clamped lookup `themes[min(week_idx, len - 1)]`
evaluates `themes[-1]` on an empty list — the run raises `IndexError`
instead of planning slots, refuting in-bounds safety for every accepted
response. -/
theorem theme_lookup_cex :
    (create_organic_campaign_manual envC10 ⟨2024, 6, 1⟩ store0 p1).2 =
      RunRes.exn "IndexError" := by
  with_unfolding_all decide

/-- C10 amended: for every accepted theme response that is a non-empty list
of strings, every clamped theme lookup `themes[min(week_idx, len - 1)]` is
in bounds; the accepted empty list is the sole exception. -/
theorem theme_lookup_amended (v : PyVal) (l : List String)
    (hv : asStrList v = some l) (hne : l ≠ []) (wk : Nat) :
    (pyIdx l (min (wk : Int) ((l.length : Int) - 1))).isSome = true :=
  pyIdx_clamp_isSome hne wk

/-- C10 amended witness: a singleton accepted list at week 5. -/
theorem theme_lookup_amended_witness :
    asStrList (.pyList [.pyStr "Week 1"]) = some ["Week 1"] ∧
    ["Week 1"] ≠ ([] : List String) ∧
    (pyIdx ["Week 1"] (min ((5 : Nat) : Int)
      (((["Week 1"] : List String).length : Int) - 1))).isSome = true :=
  ⟨rfl, by decide, theme_lookup_amended (.pyList [.pyStr "Week 1"]) ["Week 1"] rfl
    (by decide) 5⟩



theorem setdefaultAppend_flat (b : List (Nat × List PlannedTask)) (k : Nat)
    (t : PlannedTask) : (flatTasks (setdefaultAppend b k t)).Perm (t :: flatTasks b) := by
  induction b with
  | nil => simp [flatTasks, setdefaultAppend]
  | cons e rest ih =>
    by_cases he : e.1 = k
    · simp only [setdefaultAppend, if_pos he, flatTasks, List.flatMap_cons,
        List.append_assoc, List.singleton_append]
      exact List.perm_middle
    · simp only [setdefaultAppend, if_neg he, flatTasks, List.flatMap_cons]
      exact (List.Perm.append_left e.2 ih).trans List.perm_middle

theorem innerFold_flat (cm : List (String × Nat)) (wk : Nat) (current : Date)
    (stage theme : String) : ∀ (platforms : List String)
    (b0 : List (Nat × List PlannedTask)),
    (flatTasks (platforms.foldl (fun b plat =>
      match dictFind cm plat with
      | some cid => setdefaultAppend b wk
          { date := current, stage := stage, theme := theme,
            platform := plat, calendar_id := cid }
      | none => b) b0)).Perm
      (dayTasks platforms cm current stage theme ++ flatTasks b0) := by
  intro platforms
  induction platforms with
  | nil => intro b0; simp [dayTasks]
  | cons plat rest ih =>
    intro b0
    rw [List.foldl_cons]
    cases hdf : dictFind cm plat with
    | none =>
      simp only [hdf]
      have hd : dayTasks (plat :: rest) cm current stage theme =
          dayTasks rest cm current stage theme := by
        simp [dayTasks, List.filterMap_cons, hdf]
      rw [hd]
      exact ih b0
    | some cid =>
      simp only [hdf]
      have hd : dayTasks (plat :: rest) cm current stage theme =
          ({ date := current, stage := stage, theme := theme,
             platform := plat, calendar_id := cid } : PlannedTask) ::
          dayTasks rest cm current stage theme := by
        simp [dayTasks, List.filterMap_cons, hdf]
      rw [hd]
      have h1 := ih (setdefaultAppend b0 wk
        { date := current, stage := stage, theme := theme,
          platform := plat, calendar_id := cid })
      have h2 := setdefaultAppend_flat b0 wk
        { date := current, stage := stage, theme := theme,
          platform := plat, calendar_id := cid }
      refine h1.trans ?_
      refine (List.Perm.append_left _ h2).trans ?_
      exact List.perm_middle

theorem dayTasks_date (platforms : List String) (cm : List (String × Nat))
    (current : Date) (stage theme : String) (t : PlannedTask)
    (ht : t ∈ dayTasks platforms cm current stage theme) : t.date = current := by
  unfold dayTasks at ht
  obtain ⟨plat, hpm, he⟩ := List.mem_filterMap.mp ht
  cases hdf : dictFind cm plat with
  | none => rw [hdf] at he; cases he
  | some cid =>
    rw [hdf] at he
    cases he
    rfl

theorem dayTasks_platform_sublist (cm : List (String × Nat))
    (current : Date) (stage theme : String) : ∀ (platforms : List String),
    ((dayTasks platforms cm current stage theme).map
      (fun t => t.platform)).Sublist platforms := by
  intro platforms
  induction platforms with
  | nil => simp [dayTasks]
  | cons plat rest ih =>
    cases hdf : dictFind cm plat with
    | none =>
      have hd : dayTasks (plat :: rest) cm current stage theme =
          dayTasks rest cm current stage theme := by
        simp [dayTasks, List.filterMap_cons, hdf]
      rw [hd]
      exact ih.cons plat
    | some cid =>
      have hd : dayTasks (plat :: rest) cm current stage theme =
          ({ date := current, stage := stage, theme := theme,
             platform := plat, calendar_id := cid } : PlannedTask) ::
          dayTasks rest cm current stage theme := by
        simp [dayTasks, List.filterMap_cons, hdf]
      rw [hd, List.map_cons]
      exact ih.cons₂ plat

theorem dayTasks_pairs_nodup (platforms : List String) (cm : List (String × Nat))
    (current : Date) (stage theme : String) (hnd : platforms.Nodup) :
    ((dayTasks platforms cm current stage theme).map
      (fun t => (t.platform, t.date))).Nodup := by
  have h1 : ((dayTasks platforms cm current stage theme).map
      (fun t => t.platform)).Nodup :=
    (dayTasks_platform_sublist cm current stage theme platforms).nodup hnd
  have h2 : (dayTasks platforms cm current stage theme).map (fun t => t.platform) =
      ((dayTasks platforms cm current stage theme).map
        (fun t => (t.platform, t.date))).map Prod.fst := by
    rw [List.map_map]
    rfl
  rw [h2] at h1
  exact h1.of_map Prod.fst

theorem slotFold_nodup (goals : List String) (bctx : Ctx) (platforms : List String)
    (calendar_map : List (String × Nat)) (schedule_days : List Int)
    (themes : List String) (start : Date) (rand : Nat → ℚ) (ci : Nat → Nat)
    (hv : start.valid) (hnd : platforms.Nodup) :
    ∀ (n : Nat) (k : Nat) (batches : List (Nat × List PlannedTask)),
    (List.range n).foldl
      (slotStep goals bctx platforms calendar_map schedule_days themes start rand ci)
      (some (0, [])) = some (k, batches) →
    ((flatTasks batches).map (fun t => (t.platform, t.date))).Nodup ∧
    ∀ t ∈ flatTasks batches, ∃ j, j < n ∧ t.date = start.addDays j := by
  intro n
  induction n with
  | zero =>
    intro k batches h
    simp only [List.range_zero, List.foldl_nil, Option.some.injEq,
      Prod.mk.injEq] at h
    obtain ⟨hk, hb⟩ := h
    subst hb
    constructor
    · simp [flatTasks]
    · intro t ht
      simp [flatTasks] at ht
  | succ n ih =>
    intro k batches h
    rw [List.range_succ, List.foldl_append, List.foldl_cons, List.foldl_nil] at h
    cases hprev : (List.range n).foldl
        (slotStep goals bctx platforms calendar_map schedule_days themes start
          rand ci) (some (0, [])) with
    | none =>
      rw [hprev] at h
      simp only [slotStep] at h
      exact Option.noConfusion h
    | some kb =>
      obtain ⟨k', b'⟩ := kb
      rw [hprev] at h
      by_cases helig : (((start.addDays n).weekday : Int) ∈ schedule_days)
      · cases hidx : pyIdx themes (min ((n / 7 : Nat) : Int)
            ((themes.length : Int) - 1)) with
        | none =>
          rw [slotStep] at h
          simp only [if_pos helig, hidx] at h
          exact Option.noConfusion h
        | some theme =>
          rw [slotStep_take goals bctx platforms calendar_map schedule_days themes
            start rand ci k' b' n theme helig hidx] at h
          simp only [Option.some.injEq, Prod.mk.injEq] at h
          obtain ⟨hk, hb⟩ := h
          subst hb
          obtain ⟨hnd', hdates'⟩ := ih k' b' hprev
          have hperm := innerFold_flat calendar_map (n / 7) (start.addDays n)
            (select_stage_for_day goals bctx (rand k') (ci k')) theme platforms b'
          constructor
          · have hmap := hperm.map (fun t => (t.platform, t.date))
            rw [hmap.nodup_iff, List.map_append]
            refine List.Nodup.append ?_ hnd' ?_
            · exact dayTasks_pairs_nodup platforms calendar_map (start.addDays n)
                _ theme hnd
            · intro x hx1 hx2
              obtain ⟨t1, ht1, he1⟩ := List.mem_map.mp hx1
              obtain ⟨t2, ht2, he2⟩ := List.mem_map.mp hx2
              have hd1 : t1.date = start.addDays n :=
                dayTasks_date platforms calendar_map (start.addDays n) _ theme t1 ht1
              obtain ⟨j, hj, hd2⟩ := hdates' t2 ht2
              have hne : start.addDays j ≠ start.addDays n :=
                Date.addDays_ne hv (Nat.ne_of_lt hj)
              apply hne
              rw [← hd2, ← hd1]
              have : t1.date = t2.date := by
                have := he1.trans he2.symm
                exact (Prod.mk.injEq _ _ _ _ ▸ this).2
              rw [this]
          · intro t ht
            rcases List.mem_append.mp (hperm.mem_iff.mp ht) with hmem | hmem
            · exact ⟨n, Nat.lt_succ_self n,
                dayTasks_date platforms calendar_map (start.addDays n) _ theme t hmem⟩
            · obtain ⟨j, hj, hd⟩ := hdates' t hmem
              exact ⟨j, Nat.lt_succ_of_lt hj, hd⟩
      · rw [slotStep_skip goals bctx platforms calendar_map schedule_days themes
          start rand ci k' b' n helig] at h
        simp only [Option.some.injEq, Prod.mk.injEq] at h
        obtain ⟨hk, hb⟩ := h
        subst hb
        obtain ⟨h1, h2⟩ := ih k' b' hprev
        refine ⟨h1, fun t ht => ?_⟩
        obtain ⟨j, hj, hd⟩ := h2 t ht
        exact ⟨j, Nat.lt_succ_of_lt hj, hd⟩

theorem filterMap_triple_sublist (f : PlannedTask → Option Entry)
    (hf : ∀ t e, f t = some e → entryTriple e = taskTriple t) :
    ∀ (l : List PlannedTask),
    ((l.filterMap f).map entryTriple).Sublist (l.map taskTriple) := by
  intro l
  induction l with
  | nil => simp
  | cons t ts ih =>
    rw [List.filterMap_cons, List.map_cons]
    cases hft : f t with
    | none => exact ih.cons (taskTriple t)
    | some e =>
      rw [List.map_cons, hf t e hft]
      exact ih.cons₂ (taskTriple t)

theorem buildEntries_triple_sublist (env : Env) (uid descr : String) (bctx : Ctx) :
    ∀ (batches : List (Nat × List PlannedTask)),
    ((buildEntries env uid descr bctx batches).map entryTriple).Sublist
      ((flatTasks batches).map taskTriple) := by
  intro batches
  induction batches with
  | nil => simp [buildEntries, flatTasks]
  | cons wts rest ih =>
    simp only [buildEntries, flatTasks, List.flatMap_cons, List.map_append]
    refine List.Sublist.append ?_ ih
    cases hts : wts.2 with
    | nil => simp [hts]
    | cons t0 ts' =>
      dsimp only
      refine filterMap_triple_sublist _ ?_ (t0 :: ts')
      intro t e hfe
      cases hdg : dictGet (generate_weekly_content_batch env wts.1 (t0 :: ts')
          t0.theme bctx descr) (taskKey t) with
      | none => rw [hdg] at hfe; cases hfe
      | some v =>
        rw [hdg] at hfe
        cases v with
        | pyDict fields =>
          dsimp only at hfe
          by_cases hemp : fields.isEmpty
          · rw [if_pos hemp] at hfe; cases hfe
          · rw [if_neg hemp] at hfe
            cases hfe
            rfl
        | pyStr s => cases hfe
        | pyInt n => cases hfe
        | pyList l => cases hfe
        | pyNull => cases hfe

theorem pairs_nodup_triples (l : List PlannedTask)
    (h : (l.map (fun t => (t.platform, t.date))).Nodup) :
    (l.map taskTriple).Nodup := by
  have h2 : l.map (fun t => (t.platform, t.date)) =
      (l.map taskTriple).map (fun x => (x.1, x.2.1)) := by
    rw [List.map_map]
    rfl
  rw [h2] at h
  exact h.of_map _

theorem buildEntries_pairwise (env : Env) (uid descr : String) (bctx : Ctx)
    (goals : List String) (bctx2 : Ctx) (platforms : List String)
    (cm : List (String × Nat)) (sd : List Int) (themes : List String)
    (start : Date) (count : Nat) (rand : Nat → ℚ) (ci : Nat → Nat)
    (hv : start.valid) (hnd : platforms.Nodup)
    (batches : List (Nat × List PlannedTask))
    (hbat : buildBatches goals bctx2 platforms cm sd themes start count rand ci =
      some batches) :
    (buildEntries env uid descr bctx batches).Pairwise
      (fun a b => entryTriple a ≠ entryTriple b) := by
  unfold buildBatches at hbat
  cases hf : (List.range count).foldl
      (slotStep goals bctx2 platforms cm sd themes start rand ci)
      (some (0, [])) with
  | none => rw [hf] at hbat; cases hbat
  | some kb =>
    rw [hf] at hbat
    dsimp only [Option.map] at hbat
    injection hbat with hbat2
    subst hbat2
    obtain ⟨hnodup, _⟩ := slotFold_nodup goals bctx2 platforms cm sd themes start
      rand ci hv hnd count kb.1 kb.2 hf
    have htrip := pairs_nodup_triples (flatTasks kb.2) hnodup
    have hsub := buildEntries_triple_sublist env uid descr bctx kb.2
    have hmn : ((buildEntries env uid descr bctx kb.2).map entryTriple).Nodup :=
      hsub.nodup htrip
    exact List.pairwise_map.mp hmn

/-- C9 amended: the entries one planning run appends are pairwise distinct
in (platform, entry_date, stage) — provided the request's platform list has
no duplicates and the campaign start date is a calendar date.  (Across runs
the table can still hold duplicate triples: see the counterexample.) -/
theorem triple_uniqueness_amended (env : Env) (today : Date) (s : Store)
    (p : Payload)
    (hnd : (platformsOf p).Nodup)
    (hv : (p.start_date.getD today).valid) :
    ∃ new, (create_organic_campaign_manual env today s p).1.entries =
      s.entries ++ new ∧
    new.Pairwise (fun a b => entryTriple a ≠ entryTriple b) := by
  cases hup : p.user_id with
  | none =>
    refine ⟨[], ?_, List.Pairwise.nil⟩
    simp only [create_organic_campaign_manual, hup, List.append_nil]
  | some uid =>
    cases hpe : (platformsOf p).isEmpty with
    | true =>
      refine ⟨[], ?_, List.Pairwise.nil⟩
      simp only [create_organic_campaign_manual, hup, hpe, if_true, List.append_nil]
    | false =>
      cases hcme : (resolveAll s uid (platformsOf p) (p.start_date.getD today)
          (p.name.getD "Smart Campaign") ((goalsOf p).headD "")
          (p.frequency.getD "medium") (env.profile uid)
          (some (endDurationOf p (p.start_date.getD today)).1) (descOf p)).1.isEmpty with
      | true =>
        refine ⟨[], ?_, List.Pairwise.nil⟩
        rw [List.append_nil]
        simp only [create_organic_campaign_manual, hup, hpe, Bool.false_eq_true,
          if_false, hcme, if_true]
        unfold resolveAll
        exact resolveFold_entries uid (p.start_date.getD today)
          (p.name.getD "Smart Campaign") ((goalsOf p).headD "")
          (p.frequency.getD "medium") (env.profile uid)
          (some (endDurationOf p (p.start_date.getD today)).1) (descOf p)
          (platformsOf p) [] [] s
      | false =>
        cases hbat : buildBatches (goalsOf p) (env.profile uid) (platformsOf p)
            (resolveAll s uid (platformsOf p) (p.start_date.getD today)
              (p.name.getD "Smart Campaign") ((goalsOf p).headD "")
              (p.frequency.getD "medium") (env.profile uid)
              (some (endDurationOf p (p.start_date.getD today)).1) (descOf p)).1
            (generate_smart_rhythm env (p.frequency.getD "medium")
              ((platformsOf p).headD "") (env.profile uid))
            (generate_weekly_themes env
              ((endDurationOf p (p.start_date.getD today)).2.fdiv 7 + 2)
              (String.intercalate ", " (goalsOf p)) (env.profile uid))
            (p.start_date.getD today)
            (loopCount (p.start_date.getD today)
              (endDurationOf p (p.start_date.getD today)).1)
            env.rand env.choiceIdx with
        | none =>
          refine ⟨[], ?_, List.Pairwise.nil⟩
          rw [List.append_nil]
          simp only [create_organic_campaign_manual, hup, hpe, Bool.false_eq_true,
            if_false, hcme, hbat]
          unfold resolveAll
          exact resolveFold_entries uid (p.start_date.getD today)
            (p.name.getD "Smart Campaign") ((goalsOf p).headD "")
            (p.frequency.getD "medium") (env.profile uid)
            (some (endDurationOf p (p.start_date.getD today)).1) (descOf p)
            (platformsOf p) [] [] s
        | some batches =>
          cases hbe : (buildEntries env uid (descOf p) (env.profile uid)
              batches).isEmpty with
          | true =>
            refine ⟨[], ?_, List.Pairwise.nil⟩
            rw [List.append_nil]
            simp only [create_organic_campaign_manual, hup, hpe, Bool.false_eq_true,
              if_false, hcme, hbat, hbe, if_true]
            unfold resolveAll
            exact resolveFold_entries uid (p.start_date.getD today)
              (p.name.getD "Smart Campaign") ((goalsOf p).headD "")
              (p.frequency.getD "medium") (env.profile uid)
              (some (endDurationOf p (p.start_date.getD today)).1) (descOf p)
              (platformsOf p) [] [] s
          | false =>
            refine ⟨buildEntries env uid (descOf p) (env.profile uid) batches,
              ?_, ?_⟩
            · simp only [create_organic_campaign_manual, hup, hpe,
                Bool.false_eq_true, if_false, hcme, hbat, hbe]
              rw [insertChunks_eq]
              unfold resolveAll
              rw [resolveFold_entries uid (p.start_date.getD today)
                (p.name.getD "Smart Campaign") ((goalsOf p).headD "")
                (p.frequency.getD "medium") (env.profile uid)
                (some (endDurationOf p (p.start_date.getD today)).1) (descOf p)
                (platformsOf p) [] [] s]
            · exact buildEntries_pairwise env uid (descOf p) (env.profile uid)
                (goalsOf p) (env.profile uid) (platformsOf p) _ _ _
                (p.start_date.getD today) _ env.rand env.choiceIdx hv hnd
                batches hbat

/-- C9 amended witness: a concrete single run appends pairwise-distinct
triples. -/
theorem triple_uniqueness_amended_witness :
    ∃ new, (create_organic_campaign_manual envC3 ⟨2024, 6, 1⟩ store0 p1).1.entries =
      store0.entries ++ new ∧
    new.Pairwise (fun a b => entryTriple a ≠ entryTriple b) :=
  triple_uniqueness_amended envC3 ⟨2024, 6, 1⟩ store0 p1 (by decide) (by decide)

/-- C9 counterexample: the claim quantifies over every reachable store, but
the run bulk-inserts blindly — running the identical campaign twice leaves
TWO rows with the triple ("instagram", 2024-06-03, "hook"). -/
theorem triple_uniqueness_cex :
    ((create_organic_campaign_manual envC3 ⟨2024, 6, 1⟩
        (create_organic_campaign_manual envC3 ⟨2024, 6, 1⟩ store0 p1).1
        p1).1.entries.filter
      (fun e => entryTriple e = ("instagram", ⟨2024, 6, 3⟩, "hook"))).length = 2 := by
  with_unfolding_all decide
